import Mathlib

/-!
Verification of the order-lifecycle and reconciliation engine of a
multi-tenant hospital management system (Express + Prisma routes).

The route handlers are shallowly embedded: each Prisma table row becomes a
Lean structure (DECIMAL columns as Rat, INTEGER columns as Int, enum columns
as inductives), each handler becomes a total function returning
Except String on the explicit state it touches, and an interactive
$transaction that throws is modelled by returning the pre-call state
unchanged (rollback).  Audit-only columns (timestamps of no behavioural
consequence, user references, free-text notes) are elided.
-/

namespace Billing

/-- BillStatus enum from the Prisma schema. -/
inductive BillStatus
  | PENDING
  | PARTIALLY_PAID
  | PAID
  | CANCELLED
  | REFUNDED
deriving DecidableEq, Repr

/-- LabOrderStatus / RadiologyOrderStatus value set as far as billing sees it
(the two enums share the states used here). -/
inductive OrderStatus
  | PENDING_PAYMENT
  | PAID
  | SAMPLE_COLLECTED
  | SCHEDULED
  | IN_PROGRESS
  | COMPLETED
  | CANCELLED
deriving DecidableEq, Repr

/-- A BillItem row: the price data and the optional links to an originating
lab or radiology order. -/
structure BillItem where
  labOrderId : Option Nat
  radiologyOrderId : Option Nat
  unitPrice : Rat
  quantity : Nat
deriving DecidableEq, Repr

/-- A Bill row together with its Payment child rows (amount column only;
payment numbers, methods and dates are audit data). -/
structure Bill where
  subtotal : Rat
  discount : Rat
  tax : Rat
  totalAmount : Rat
  paidAmount : Rat
  status : BillStatus
  items : List BillItem
  payments : List Rat
deriving DecidableEq, Repr

/-- A lab or radiology order as the payment reconciler sees it. -/
structure LinkedOrder where
  id : Nat
  status : OrderStatus
  totalAmount : Rat
  paidAmount : Rat
deriving DecidableEq, Repr

/-- The slice of the database a payment on one bill can touch. -/
structure BillingState where
  bill : Bill
  labOrders : List LinkedOrder
  radOrders : List LinkedOrder
deriving DecidableEq, Repr

/-- POST / (create bill): subtotal is the sum of unitPrice times quantity
over the request items, totalAmount = subtotal - discount + tax, status
starts at PENDING with paidAmount 0 and no payments.  The route rejects an
empty item list. -/
def mkBill (items : List BillItem) (discount tax : Rat) : Bill :=
  let subtotal := items.foldl (fun sum it => sum + it.unitPrice * (it.quantity : Rat)) 0
  { subtotal := subtotal
    discount := discount
    tax := tax
    totalAmount := subtotal - discount + tax
    paidAmount := 0
    status := BillStatus.PENDING
    items := items
    payments := [] }

/-- The bill object as loaded at the top of POST /:id/payments by
findUnique with include payments only: the items relation is NOT included,
so the items field of the loaded JS object is undefined. -/
structure LoadedBill where
  totalAmount : Rat
  paidAmount : Rat
  items : Option (List BillItem)
deriving DecidableEq, Repr

def loadBillForPayment (b : Bill) : LoadedBill :=
  { totalAmount := b.totalAmount, paidAmount := b.paidAmount, items := none }

/-- bill.items?.filter(item => item.labOrderId).map(item => item.labOrderId) || [] -/
def loadedLabOrderIds (lb : LoadedBill) : List Nat :=
  match lb.items with
  | none => []
  | some its => its.filterMap (fun it => it.labOrderId)

/-- bill.items?.filter(item => item.radiologyOrderId).map(...) || [] -/
def loadedRadOrderIds (lb : LoadedBill) : List Nat :=
  match lb.items with
  | none => []
  | some its => its.filterMap (fun it => it.radiologyOrderId)

/-- POST /:id/payments.  A falsy (zero) amount fails validation; an amount
exceeding the remaining balance is rejected; otherwise the payment row is
appended, paidAmount and status are recomputed, and when the new status is
PAID the orders named by the loaded bill items are flipped to PAID with the
payment split equally over them (updateMany, guarded by a nonempty id
list). -/
def recordPayment (s : BillingState) (amount : Rat) : Except String BillingState :=
  if amount = 0 then Except.error "Amount and payment method are required"
  else
    let lb := loadBillForPayment s.bill
    let remaining := lb.totalAmount - lb.paidAmount
    if remaining < amount then Except.error "Payment amount exceeds remaining balance"
    else
      let newPaidAmount := lb.paidAmount + amount
      let newStatus :=
        if lb.totalAmount ≤ newPaidAmount then BillStatus.PAID else BillStatus.PARTIALLY_PAID
      let bill := { s.bill with
        paidAmount := newPaidAmount
        status := newStatus
        payments := s.bill.payments ++ [amount] }
      let labOrderIds := if newStatus = BillStatus.PAID then loadedLabOrderIds lb else []
      let radOrderIds := if newStatus = BillStatus.PAID then loadedRadOrderIds lb else []
      let labOrders :=
        if labOrderIds.length > 0 then
          s.labOrders.map (fun o =>
            if o.id ∈ labOrderIds then
              { o with status := OrderStatus.PAID
                       paidAmount := o.paidAmount + amount / (labOrderIds.length : Rat) }
            else o)
        else s.labOrders
      let radOrders :=
        if radOrderIds.length > 0 then
          s.radOrders.map (fun o =>
            if o.id ∈ radOrderIds then
              { o with status := OrderStatus.PAID
                       paidAmount := o.paidAmount + amount / (radOrderIds.length : Rat) }
            else o)
        else s.radOrders
      Except.ok { bill := bill, labOrders := labOrders, radOrders := radOrders }

/-- The payment route seen as a state transformer: an error response leaves
the database unchanged. -/
def paymentEndpoint (s : BillingState) (amount : Rat) : BillingState :=
  match recordPayment s amount with
  | Except.ok s2 => s2
  | Except.error _ => s

/-- PATCH /:id/cancel: a bill with paidAmount > 0 cannot be cancelled. -/
def cancelBill (s : BillingState) : Except String BillingState :=
  if 0 < s.bill.paidAmount then
    Except.error "Cannot cancel bill with payments. Process refund instead."
  else
    Except.ok { s with bill := { s.bill with status := BillStatus.CANCELLED } }

def cancelEndpoint (s : BillingState) : BillingState :=
  match cancelBill s with
  | Except.ok s2 => s2
  | Except.error _ => s

/-- Sum of the Payment rows of a bill. -/
def paymentsSum (b : Bill) : Rat :=
  b.payments.foldl (fun a p => a + p) 0

/-- Billing states reachable through the route handlers: bill creation
(with at least one item), payments and cancellation.  The lab and radiology
orders attached at creation are arbitrary, as the orders are created by the
lab and radiology modules. -/
inductive Reachable : BillingState → Prop
  | create (items : List BillItem) (discount tax : Rat)
      (labs rads : List LinkedOrder) (hne : items ≠ []) :
      Reachable { bill := mkBill items discount tax, labOrders := labs, radOrders := rads }
  | pay (s : BillingState) (amount : Rat) (h : Reachable s) :
      Reachable (paymentEndpoint s amount)
  | cancel (s : BillingState) (h : Reachable s) :
      Reachable (cancelEndpoint s)

/-- paymentsSum distributes over appending one payment. -/
theorem paymentsSum_append (l : List Rat) (a x : Rat) :
    (l ++ [x]).foldl (fun a p => a + p) a = l.foldl (fun a p => a + p) a + x := by
  induction l generalizing a with
  | nil => simp
  | cons p rest ih => simp [ih]

/-- The invariant maintained by the billing routes. -/
def BillInv (s : BillingState) : Prop :=
  paymentsSum s.bill = s.bill.paidAmount ∧
  (0 < s.bill.totalAmount →
    s.bill.paidAmount ≤ s.bill.totalAmount ∧
    (s.bill.status = BillStatus.PAID ↔ s.bill.totalAmount ≤ s.bill.paidAmount)) ∧
  (s.bill.payments ≠ [] →
    s.bill.status = BillStatus.PAID ∨ s.bill.status = BillStatus.PARTIALLY_PAID ∨
      s.bill.status = BillStatus.CANCELLED)

theorem billInv_create (items : List BillItem) (discount tax : Rat)
    (labs rads : List LinkedOrder) :
    BillInv { bill := mkBill items discount tax, labOrders := labs, radOrders := rads } := by
  refine ⟨rfl, fun hpos => ⟨le_of_lt hpos, ?_⟩, fun hne => absurd rfl hne⟩
  simp only [mkBill]
  constructor
  · intro h
    exact absurd h (by simp)
  · intro h
    exact absurd (lt_of_lt_of_le hpos h) (by simp)

/-- What a successful payment does to the bill row itself. -/
theorem paymentEndpoint_bill (s : BillingState) (amount : Rat) (h0 : ¬amount = 0)
    (hrem : ¬s.bill.totalAmount - s.bill.paidAmount < amount) :
    (paymentEndpoint s amount).bill =
      { s.bill with
        paidAmount := s.bill.paidAmount + amount
        status :=
          if s.bill.totalAmount ≤ s.bill.paidAmount + amount then BillStatus.PAID
          else BillStatus.PARTIALLY_PAID
        payments := s.bill.payments ++ [amount] } := by
  simp only [paymentEndpoint, recordPayment, loadBillForPayment, if_neg h0, if_neg hrem]

theorem billInv_pay (s : BillingState) (amount : Rat) (ih : BillInv s) :
    BillInv (paymentEndpoint s amount) := by
  obtain ⟨hsum, hbound, hst⟩ := ih
  by_cases h0 : amount = 0
  · simp [paymentEndpoint, recordPayment, h0]
    exact ⟨hsum, hbound, hst⟩
  · by_cases hrem : s.bill.totalAmount - s.bill.paidAmount < amount
    · simp only [paymentEndpoint, recordPayment, loadBillForPayment, if_neg h0, if_pos hrem]
      exact ⟨hsum, hbound, hst⟩
    · have hle : amount ≤ s.bill.totalAmount - s.bill.paidAmount := le_of_not_lt hrem
      have hb := paymentEndpoint_bill s amount h0 hrem
      unfold BillInv
      rw [hb]
      dsimp only
      refine ⟨?_, fun hpos => ⟨by linarith, ?_⟩, fun _ => ?_⟩
      · simp only [paymentsSum] at hsum ⊢
        rw [paymentsSum_append]
        linarith
      · by_cases hfull : s.bill.totalAmount ≤ s.bill.paidAmount + amount
        · simp [hfull]
        · simp [hfull]
      · by_cases hfull : s.bill.totalAmount ≤ s.bill.paidAmount + amount
        · simp [hfull]
        · simp [hfull]

theorem billInv_cancel (s : BillingState) (ih : BillInv s) :
    BillInv (cancelEndpoint s) := by
  obtain ⟨hsum, hbound, hst⟩ := ih
  by_cases hp : 0 < s.bill.paidAmount
  · simp [cancelEndpoint, cancelBill, hp]
    exact ⟨hsum, hbound, hst⟩
  · simp only [cancelEndpoint, cancelBill, if_neg hp]
    refine ⟨hsum, fun hpos => ⟨(hbound hpos).1, ?_⟩, fun _ => Or.inr (Or.inr rfl)⟩
    have hple : s.bill.paidAmount ≤ 0 := le_of_not_lt hp
    constructor
    · intro h
      exact absurd h (by simp)
    · intro h
      exact absurd (lt_of_lt_of_le hpos h) (not_lt_of_le hple)

theorem billInv_reachable (s : BillingState) (h : Reachable s) : BillInv s := by
  induction h with
  | create items discount tax labs rads hne => exact billInv_create items discount tax labs rads
  | pay s amount h ih => exact billInv_pay s amount ih
  | cancel s h ih => exact billInv_cancel s ih

/-- C2 counterexample state: a bill created from one zero-priced item with a
discount of 5, giving totalAmount = -5 while paidAmount = 0. -/
def c2State : BillingState :=
  { bill := mkBill [{ labOrderId := none, radiologyOrderId := none, unitPrice := 0, quantity := 1 }] 5 0
    labOrders := []
    radOrders := [] }

/-- C2 is false as stated: a reachable bill (one item of unit price 0,
discount 5) has totalAmount -5 and paidAmount 0, so paidAmount exceeds
totalAmount, and paidAmount is at least totalAmount while the status is
PENDING rather than PAID. -/
theorem c2_counterexample :
    Reachable c2State ∧
    c2State.bill.totalAmount < c2State.bill.paidAmount ∧
    c2State.bill.totalAmount ≤ c2State.bill.paidAmount ∧
    c2State.bill.status ≠ BillStatus.PAID := by
  refine ⟨Reachable.create _ 5 0 [] [] (by simp), ?_, ?_, ?_⟩
  · norm_num [c2State, mkBill]
  · norm_num [c2State, mkBill]
  · simp [c2State, mkBill]

/-- C2 amended: in every reachable billing state the sum of the payment rows
equals paidAmount; whenever totalAmount is positive, paidAmount never
exceeds totalAmount and status is PAID iff paidAmount has reached
totalAmount; and a payment exceeding the remaining balance is rejected with
an error and leaves the state unchanged.  (A bill whose computed totalAmount
is zero or negative is created as PENDING with paidAmount 0, which refutes
the unconditional claim.) -/
theorem c2_bill_conservation (s : BillingState) (h : Reachable s) :
    paymentsSum s.bill = s.bill.paidAmount ∧
    (0 < s.bill.totalAmount →
      s.bill.paidAmount ≤ s.bill.totalAmount ∧
      (s.bill.status = BillStatus.PAID ↔ s.bill.totalAmount ≤ s.bill.paidAmount)) ∧
    (∀ amount : Rat, s.bill.totalAmount - s.bill.paidAmount < amount →
      (∃ e, recordPayment s amount = Except.error e) ∧ paymentEndpoint s amount = s) := by
  obtain ⟨hsum, hbound, _⟩ := billInv_reachable s h
  refine ⟨hsum, hbound, fun amount hgt => ?_⟩
  by_cases h0 : amount = 0
  · refine ⟨⟨"Amount and payment method are required", ?_⟩, ?_⟩
    · simp [recordPayment, h0]
    · simp [paymentEndpoint, recordPayment, h0]
  · refine ⟨⟨"Payment amount exceeds remaining balance", ?_⟩, ?_⟩
    · simp [recordPayment, h0, loadBillForPayment, if_pos hgt]
    · simp [paymentEndpoint, recordPayment, h0, loadBillForPayment, if_pos hgt]

/-- Concrete reachable state used by the C2 witness. -/
def c2WitnessState : BillingState :=
  { bill := mkBill [{ labOrderId := none, radiologyOrderId := none, unitPrice := 100, quantity := 1 }] 0 0
    labOrders := []
    radOrders := [] }

/-- Witness instantiating c2_bill_conservation on a concrete reachable bill. -/
theorem c2_bill_conservation_witness :
    paymentsSum c2WitnessState.bill = c2WitnessState.bill.paidAmount ∧
    c2WitnessState.bill.paidAmount ≤ c2WitnessState.bill.totalAmount := by
  have h := c2_bill_conservation c2WitnessState
    (Reachable.create _ 0 0 [] [] (by simp))
  exact ⟨h.1, (h.2.1 (by norm_num [c2WitnessState, mkBill])).1⟩

/-- C1 failing input: a bill of 500 whose single item references lab order 1,
which is PENDING_PAYMENT with paidAmount 0. -/
def c1State : BillingState :=
  { bill :=
      { subtotal := 500, discount := 0, tax := 0, totalAmount := 500, paidAmount := 0
        status := BillStatus.PENDING
        items := [{ labOrderId := some 1, radiologyOrderId := none, unitPrice := 500, quantity := 1 }]
        payments := [] }
    labOrders := [{ id := 1, status := OrderStatus.PENDING_PAYMENT, totalAmount := 500, paidAmount := 0 }]
    radOrders := [] }

/-- C1 (code bug): paying the full 500 takes the bill to PAID, yet the linked
lab order is left untouched - still PENDING_PAYMENT with paidAmount 0 -
because the payment handler loads the bill without its items, so the id
list it feeds to updateMany is always empty. -/
theorem c1_paid_bill_leaves_linked_orders_unchanged :
    (paymentEndpoint c1State 500).bill.status = BillStatus.PAID ∧
    (paymentEndpoint c1State 500).bill.paidAmount = 500 ∧
    (paymentEndpoint c1State 500).labOrders = c1State.labOrders ∧
    c1State.labOrders =
      [{ id := 1, status := OrderStatus.PENDING_PAYMENT, totalAmount := 500, paidAmount := 0 }] := by
  refine ⟨?_, ?_, ?_, rfl⟩ <;>
    norm_num [paymentEndpoint, recordPayment, loadBillForPayment, loadedLabOrderIds,
      loadedRadOrderIds, c1State]

end Billing

namespace Pharmacy

/-- StockMovementType enum from the Prisma schema. -/
inductive StockMovementType
  | PURCHASE
  | SALE
  | RETURN
  | ADJUSTMENT
  | EXPIRED
  | TRANSFER
deriving DecidableEq, Repr

/-- A MedicineStockMovement row (movement type and quantity; batch, expiry
and free-text reference columns are audit data). -/
structure StockMovement where
  movementType : StockMovementType
  quantity : Int
deriving DecidableEq, Repr

/-- A Medicine row together with its stock-movement ledger rows in creation
order. -/
structure Medicine where
  id : Nat
  stockQuantity : Int
  movements : List StockMovement
deriving DecidableEq, Repr

/-- POST /medicines: the medicine is created with the given stockQuantity
(defaulted to 0 when absent) and, only when that quantity is strictly
positive, an initial PURCHASE movement of the same quantity is recorded. -/
def createMedicine (id : Nat) (stockQuantity : Int) : Medicine :=
  { id := id
    stockQuantity := stockQuantity
    movements :=
      if 0 < stockQuantity then
        [{ movementType := StockMovementType.PURCHASE, quantity := stockQuantity }]
      else [] }

/-- POST /medicines/:id/stock: PURCHASE and RETURN add the quantity, SALE,
EXPIRED and TRANSFER subtract it after an insufficient-stock check, and
ADJUSTMENT sets the cached stock to the quantity directly; the movement row
always records the raw quantity.  A zero quantity fails the falsy-input
validation. -/
def applyStockMovement (m : Medicine) (movementType : StockMovementType) (quantity : Int) :
    Except String Medicine :=
  if quantity = 0 then Except.error "Movement type and quantity are required"
  else
    let newStockE : Except String Int :=
      match movementType with
      | StockMovementType.PURCHASE => Except.ok (m.stockQuantity + quantity)
      | StockMovementType.RETURN => Except.ok (m.stockQuantity + quantity)
      | StockMovementType.SALE =>
        if m.stockQuantity < quantity then Except.error "Insufficient stock"
        else Except.ok (m.stockQuantity - quantity)
      | StockMovementType.EXPIRED =>
        if m.stockQuantity < quantity then Except.error "Insufficient stock"
        else Except.ok (m.stockQuantity - quantity)
      | StockMovementType.TRANSFER =>
        if m.stockQuantity < quantity then Except.error "Insufficient stock"
        else Except.ok (m.stockQuantity - quantity)
      | StockMovementType.ADJUSTMENT => Except.ok quantity
    match newStockE with
    | Except.error e => Except.error e
    | Except.ok newStock =>
      Except.ok { m with
        stockQuantity := newStock
        movements := m.movements ++ [{ movementType := movementType, quantity := quantity }] }

/-- The signed contribution of a movement under the signs the claim assigns:
PURCHASE and RETURN positive, SALE, EXPIRED and TRANSFER negative (the claim
assigns ADJUSTMENT no sign, so it contributes nothing here; the two variants
below try the two possible signs for it). -/
def signedQuantity (mv : StockMovement) : Int :=
  match mv.movementType with
  | StockMovementType.PURCHASE => mv.quantity
  | StockMovementType.RETURN => mv.quantity
  | StockMovementType.SALE => -mv.quantity
  | StockMovementType.EXPIRED => -mv.quantity
  | StockMovementType.TRANSFER => -mv.quantity
  | StockMovementType.ADJUSTMENT => 0

def signedQuantityAdjPos (mv : StockMovement) : Int :=
  match mv.movementType with
  | StockMovementType.ADJUSTMENT => mv.quantity
  | _ => signedQuantity mv

def signedQuantityAdjNeg (mv : StockMovement) : Int :=
  match mv.movementType with
  | StockMovementType.ADJUSTMENT => -mv.quantity
  | _ => signedQuantity mv

def signedSum (l : List StockMovement) : Int := (l.map signedQuantity).sum

def signedSumAdjPos (l : List StockMovement) : Int := (l.map signedQuantityAdjPos).sum

def signedSumAdjNeg (l : List StockMovement) : Int := (l.map signedQuantityAdjNeg).sum

theorem signedSum_append (l : List StockMovement) (x : StockMovement) :
    signedSum (l ++ [x]) = signedSum l + signedQuantity x := by
  simp [signedSum]

/-- Intermediate and final states of the C3 counterexample run. -/
def c3Mid : Medicine :=
  { id := 1, stockQuantity := 3
    movements := [{ movementType := StockMovementType.PURCHASE, quantity := 3 }] }

def c3Medicine : Medicine :=
  { id := 1, stockQuantity := 5
    movements := [{ movementType := StockMovementType.PURCHASE, quantity := 3 },
                  { movementType := StockMovementType.ADJUSTMENT, quantity := 5 }] }

/-- C3 is false as stated: starting from a medicine created with zero stock,
a PURCHASE of 3 followed by an ADJUSTMENT of 5 leaves the cached
stockQuantity at 5 while the signed sum of the ledger is 3 - and no sign
convention for the ADJUSTMENT row (ignored, positive, or negative) makes the
sum equal 5. -/
theorem c3_counterexample :
    applyStockMovement (createMedicine 1 0) StockMovementType.PURCHASE 3 = Except.ok c3Mid ∧
    applyStockMovement c3Mid StockMovementType.ADJUSTMENT 5 = Except.ok c3Medicine ∧
    c3Medicine.stockQuantity = 5 ∧
    signedSum c3Medicine.movements = 3 ∧
    signedSumAdjPos c3Medicine.movements = 8 ∧
    signedSumAdjNeg c3Medicine.movements = -2 := by
  refine ⟨rfl, rfl, by decide, by decide, by decide, by decide⟩

/-- Medicine states reachable without ADJUSTMENT movements: creation with a
nonnegative initial stock, successful non-ADJUSTMENT stock movements, and
the SALE decrement performed by prescription dispensing (which appends a
SALE row for the dispensed quantity after its own insufficient-stock
check). -/
inductive StockReachable : Medicine → Prop
  | create (id : Nat) (q : Int) (h : 0 ≤ q) : StockReachable (createMedicine id q)
  | move (m : Medicine) (t : StockMovementType) (q : Int) (m2 : Medicine)
      (hr : StockReachable m) (ht : t ≠ StockMovementType.ADJUSTMENT)
      (hok : applyStockMovement m t q = Except.ok m2) : StockReachable m2
  | dispenseSale (m : Medicine) (q : Int) (hr : StockReachable m)
      (hstock : ¬m.stockQuantity < q) :
      StockReachable { m with
        stockQuantity := m.stockQuantity - q
        movements := m.movements ++ [{ movementType := StockMovementType.SALE, quantity := q }] }

/-- C3 amended: the cached stockQuantity equals the signed sum of the ledger
in every state reachable through creation with nonnegative initial stock and
through PURCHASE, RETURN, SALE, EXPIRED and TRANSFER movements, including
dispensing; an ADJUSTMENT movement breaks the equality because it sets the
cache to an absolute value while recording the raw quantity. -/
theorem c3_stock_conservation (m : Medicine) (h : StockReachable m) :
    m.stockQuantity = signedSum m.movements := by
  induction h with
  | create id q hq =>
    by_cases hpos : 0 < q
    · simp [createMedicine, hpos, signedSum, signedQuantity]
    · have hq0 : q = 0 := le_antisymm (le_of_not_lt hpos) hq
      simp [createMedicine, hq0, signedSum]
  | move m t q m2 hr ht hok ih =>
    have hq0 : ¬q = 0 := by
      intro hq
      simp [applyStockMovement, hq] at hok
    cases t with
    | PURCHASE =>
      simp only [applyStockMovement, if_neg hq0, Except.ok.injEq] at hok
      rw [← hok, signedSum_append]
      simp [signedQuantity, ih]
    | RETURN =>
      simp only [applyStockMovement, if_neg hq0, Except.ok.injEq] at hok
      rw [← hok, signedSum_append]
      simp [signedQuantity, ih]
    | SALE =>
      simp only [applyStockMovement, if_neg hq0] at hok
      by_cases hs : m.stockQuantity < q
      · simp [if_pos hs] at hok
      · simp only [if_neg hs, Except.ok.injEq] at hok
        rw [← hok, signedSum_append]
        simp [signedQuantity, ih]
        ring
    | EXPIRED =>
      simp only [applyStockMovement, if_neg hq0] at hok
      by_cases hs : m.stockQuantity < q
      · simp [if_pos hs] at hok
      · simp only [if_neg hs, Except.ok.injEq] at hok
        rw [← hok, signedSum_append]
        simp [signedQuantity, ih]
        ring
    | TRANSFER =>
      simp only [applyStockMovement, if_neg hq0] at hok
      by_cases hs : m.stockQuantity < q
      · simp [if_pos hs] at hok
      · simp only [if_neg hs, Except.ok.injEq] at hok
        rw [← hok, signedSum_append]
        simp [signedQuantity, ih]
        ring
    | ADJUSTMENT => exact absurd rfl ht
  | dispenseSale m q hr hstock ih =>
    rw [signedSum_append] at *
    simp [signedQuantity, ih]
    ring

/-- Witness instantiating c3_stock_conservation on a concrete creation. -/
theorem c3_stock_conservation_witness :
    (createMedicine 1 5).stockQuantity = signedSum (createMedicine 1 5).movements :=
  c3_stock_conservation (createMedicine 1 5) (StockReachable.create 1 5 (by decide))

/-- PrescriptionStatus enum from the Prisma schema. -/
inductive PrescriptionStatus
  | PENDING
  | PARTIALLY_DISPENSED
  | DISPENSED
  | CANCELLED
deriving DecidableEq, Repr

/-- A PrescriptionItem row (dispenser identity and per-item timestamps are
audit data). -/
structure PrescriptionItem where
  id : Nat
  medicineId : Nat
  quantity : Int
  dispensedQty : Int
deriving DecidableEq, Repr

structure Prescription where
  status : PrescriptionStatus
  items : List PrescriptionItem
  dispensedAt : Option Nat
deriving DecidableEq, Repr

/-- The slice of the database one dispense call touches. -/
structure PharmacyState where
  medicines : List Medicine
  prescription : Prescription
deriving DecidableEq, Repr

/-- One entry of the request body items array of POST /dispense. -/
structure DispenseRequestItem where
  prescriptionItemId : Nat
  quantity : Int
deriving DecidableEq, Repr

/-- The three writes of one successful loop iteration of the dispense
transaction: increment the matched prescription item dispensedQty, decrement
the medicine stock, and append a SALE movement for the dispensed quantity. -/
def dispenseApply (s : PharmacyState) (r : DispenseRequestItem) (med : Medicine) :
    PharmacyState :=
  { medicines := s.medicines.map (fun m =>
      if m.id == med.id then
        { m with
          stockQuantity := m.stockQuantity - r.quantity
          movements := m.movements ++
            [{ movementType := StockMovementType.SALE, quantity := r.quantity }] }
      else m)
    prescription := { s.prescription with
      items := s.prescription.items.map (fun q =>
        if q.id == r.prescriptionItemId then
          { q with dispensedQty := q.dispensedQty + r.quantity }
        else q) } }

/-- The for-loop inside the dispense transaction.  Matching is done against
the prescription items as fetched before the transaction (snap); an
unmatched request entry is skipped with continue; a missing medicine or
insufficient stock throws, aborting the whole transaction; otherwise the
writes of dispenseApply happen and the loop continues on the updated
state. -/
def dispenseItems (snap : List PrescriptionItem) :
    PharmacyState → List DispenseRequestItem → Except String PharmacyState
  | s, [] => Except.ok s
  | s, r :: rest =>
    match snap.find? (fun p => p.id == r.prescriptionItemId) with
    | none => dispenseItems snap s rest
    | some pitem =>
      match s.medicines.find? (fun m => m.id == pitem.medicineId) with
      | none => Except.error "Insufficient stock for medicine"
      | some med =>
        if med.stockQuantity < r.quantity then
          Except.error "Insufficient stock for medicine"
        else
          dispenseItems snap (dispenseApply s r med) rest

/-- Unfolding lemma for one loop iteration. -/
theorem dispenseItems_cons (snap : List PrescriptionItem) (s : PharmacyState)
    (x : DispenseRequestItem) (rest : List DispenseRequestItem) :
    dispenseItems snap s (x :: rest) =
      match snap.find? (fun p => p.id == x.prescriptionItemId) with
      | none => dispenseItems snap s rest
      | some pitem =>
        match s.medicines.find? (fun m => m.id == pitem.medicineId) with
        | none => Except.error "Insufficient stock for medicine"
        | some med =>
          if med.stockQuantity < x.quantity then
            Except.error "Insufficient stock for medicine"
          else
            dispenseItems snap (dispenseApply s x med) rest := rfl

/-- POST /dispense: validation, the transaction loop, then the
fully/partially-dispensed status recomputation over the updated items. -/
def dispense (s : PharmacyState) (reqItems : List DispenseRequestItem) (now : Nat) :
    Except String PharmacyState :=
  if reqItems.isEmpty then Except.error "Prescription ID and items are required"
  else
    match dispenseItems s.prescription.items s reqItems with
    | Except.error e => Except.error e
    | Except.ok s2 =>
      let updatedItems := s2.prescription.items
      let allDispensed := updatedItems.all (fun i => i.quantity ≤ i.dispensedQty)
      let someDispensed := updatedItems.any (fun i => 0 < i.dispensedQty)
      let status :=
        if allDispensed then PrescriptionStatus.DISPENSED
        else if someDispensed then PrescriptionStatus.PARTIALLY_DISPENSED
        else PrescriptionStatus.PENDING
      Except.ok { s2 with
        prescription := { s2.prescription with
          status := status
          dispensedAt := if allDispensed then some now else none } }

/-- The dispense route as a state transformer: a thrown error rolls the
transaction back, leaving the state unchanged, and surfaces the message. -/
def dispenseEndpoint (s : PharmacyState) (req : List DispenseRequestItem) (now : Nat) :
    PharmacyState × Option String :=
  match dispense s req now with
  | Except.ok s2 => (s2, none)
  | Except.error e => (s, some e)

/-- The medicine update applied by one loop step preserves ids, so find? by
id on the updated list is find? on the old list composed with the update. -/
theorem find?_map_preserving (l : List Medicine) (f : Medicine → Medicine)
    (hid : ∀ m, (f m).id = m.id) (i : Nat) :
    (l.map f).find? (fun m => m.id == i) = (l.find? (fun m => m.id == i)).map f := by
  induction l with
  | nil => rfl
  | cons a rest ih =>
    by_cases ha : a.id == i
    · simp [List.find?, hid, ha]
    · simp only [List.map_cons, List.find?]
      rw [hid a]
      simp only [ha]
      exact ih

/-- If the request contains an entry, matched to a prescription item whose
backing medicine has less stock than the entry requests, then the loop
throws - provided no entry requests a negative quantity (stocks can then
only shrink while the loop runs). -/
theorem dispenseItems_error_of_lowstock
    (snap : List PrescriptionItem) (r : DispenseRequestItem) (p : PrescriptionItem)
    (hfind : snap.find? (fun q => q.id == r.prescriptionItemId) = some p) :
    ∀ (req : List DispenseRequestItem) (s : PharmacyState) (med : Medicine),
      r ∈ req →
      (∀ x ∈ req, 0 ≤ x.quantity) →
      s.medicines.find? (fun m => m.id == p.medicineId) = some med →
      med.stockQuantity < r.quantity →
      ∃ e, dispenseItems snap s req = Except.error e := by
  intro req
  induction req with
  | nil =>
    intro s med hmem
    exact absurd hmem (List.not_mem_nil r)
  | cons x rest ih =>
    intro s med hmem hnonneg hmed hstock
    rcases List.mem_cons.mp hmem with hx | hx
    · subst hx
      rw [dispenseItems_cons, hfind]
      dsimp only
      rw [hmed]
      dsimp only
      rw [if_pos hstock]
      exact ⟨_, rfl⟩
    · have hnonneg2 : ∀ y ∈ rest, 0 ≤ y.quantity :=
        fun y hy => hnonneg y (List.mem_cons_of_mem x hy)
      rw [dispenseItems_cons]
      cases hsnap : snap.find? (fun q => q.id == x.prescriptionItemId) with
      | none =>
        dsimp only
        exact ih s med hx hnonneg2 hmed hstock
      | some p2 =>
        dsimp only
        cases hmed2 : s.medicines.find? (fun m => m.id == p2.medicineId) with
        | none => exact ⟨_, rfl⟩
        | some med2 =>
          dsimp only
          by_cases hs2 : med2.stockQuantity < x.quantity
          · rw [if_pos hs2]
            exact ⟨_, rfl⟩
          · rw [if_neg hs2]
            set f : Medicine → Medicine := fun m =>
              if m.id == med2.id then
                { m with
                  stockQuantity := m.stockQuantity - x.quantity
                  movements := m.movements ++
                    [{ movementType := StockMovementType.SALE, quantity := x.quantity }] }
              else m with hf
            have hid : ∀ m, (f m).id = m.id := by
              intro m
              simp only [hf]
              by_cases hc : m.id = med2.id
              · simp [hc]
              · simp [hc]
            have hmedNew :
                (dispenseApply s x med2).medicines.find? (fun m => m.id == p.medicineId) =
                  some (f med) := by
              show (s.medicines.map f).find? (fun m => m.id == p.medicineId) = some (f med)
              rw [find?_map_preserving s.medicines f hid p.medicineId, hmed]
              rfl
            have hstockNew : (f med).stockQuantity < r.quantity := by
              have hxq : 0 ≤ x.quantity := hnonneg x (List.mem_cons_self x rest)
              by_cases hc : med.id == med2.id
              · simp only [hf, if_pos hc]
                omega
              · simp only [hf, if_neg hc]
                exact hstock
            exact ih _ (f med) hx hnonneg2 hmedNew hstockNew

/-- C4 amended: a dispense request containing an entry whose quantity
exceeds the backing medicine stock fails as a whole with an error and
leaves the entire state unchanged, provided no entry of the request carries
a negative quantity.  (A negative quantity is accepted by the handler and
increases stock, which is what the counterexample exploits.) -/
theorem c4_dispense_rolls_back
    (s : PharmacyState) (req : List DispenseRequestItem) (now : Nat)
    (r : DispenseRequestItem) (p : PrescriptionItem) (med : Medicine)
    (hmem : r ∈ req)
    (hnonneg : ∀ x ∈ req, 0 ≤ x.quantity)
    (hfind : s.prescription.items.find? (fun q => q.id == r.prescriptionItemId) = some p)
    (hmed : s.medicines.find? (fun m => m.id == p.medicineId) = some med)
    (hstock : med.stockQuantity < r.quantity) :
    (∃ e, dispense s req now = Except.error e) ∧ (dispenseEndpoint s req now).1 = s := by
  have hne : ¬req.isEmpty := by
    cases req with
    | nil => exact absurd hmem (List.not_mem_nil r)
    | cons a l => simp [List.isEmpty]
  obtain ⟨e, he⟩ :=
    dispenseItems_error_of_lowstock s.prescription.items r p hfind req s med hmem hnonneg
      hmed hstock
  have hd : dispense s req now = Except.error e := by
    simp only [dispense, hne]
    rw [he]
    simp
  exact ⟨⟨e, hd⟩, by simp [dispenseEndpoint, hd]⟩

/-- The spec scenario state: medicine 1 with stock 5, one prescription item
of quantity 10 backed by it, request to dispense 10. -/
def c4WitnessState : PharmacyState :=
  { medicines := [{ id := 1, stockQuantity := 5
                    movements := [{ movementType := StockMovementType.PURCHASE, quantity := 5 }] }]
    prescription :=
      { status := PrescriptionStatus.PENDING
        items := [{ id := 10, medicineId := 1, quantity := 10, dispensedQty := 0 }]
        dispensedAt := none } }

/-- Witness: dispensing 10 against stock 5 leaves the state unchanged. -/
theorem c4_dispense_rolls_back_witness :
    (dispenseEndpoint c4WitnessState [{ prescriptionItemId := 10, quantity := 10 }] 0).1 =
      c4WitnessState :=
  (c4_dispense_rolls_back c4WitnessState [{ prescriptionItemId := 10, quantity := 10 }] 0
    { prescriptionItemId := 10, quantity := 10 }
    { id := 10, medicineId := 1, quantity := 10, dispensedQty := 0 }
    { id := 1, stockQuantity := 5
      movements := [{ movementType := StockMovementType.PURCHASE, quantity := 5 }] }
    (List.mem_singleton.mpr rfl) (by decide) (by rfl) (by rfl) (by decide)).2

/-- C4 counterexample input: medicine 1 holds stock 5; the prescription item
asks for 20; the request dispenses -100 and then 10 against it. -/
def c4State : PharmacyState :=
  { medicines := [{ id := 1, stockQuantity := 5
                    movements := [{ movementType := StockMovementType.PURCHASE, quantity := 5 }] }]
    prescription :=
      { status := PrescriptionStatus.PENDING
        items := [{ id := 10, medicineId := 1, quantity := 20, dispensedQty := 0 }]
        dispensedAt := none } }

def c4Req : List DispenseRequestItem :=
  [{ prescriptionItemId := 10, quantity := -100 },
   { prescriptionItemId := 10, quantity := 10 }]

/-- The state the dispense call actually commits on the C4 counterexample. -/
def c4Final : PharmacyState :=
  { medicines := [{ id := 1, stockQuantity := 95
                    movements := [{ movementType := StockMovementType.PURCHASE, quantity := 5 },
                                  { movementType := StockMovementType.SALE, quantity := -100 },
                                  { movementType := StockMovementType.SALE, quantity := 10 }] }]
    prescription :=
      { status := PrescriptionStatus.PENDING
        items := [{ id := 10, medicineId := 1, quantity := 20, dispensedQty := -90 }]
        dispensedAt := none } }

/-- C4 is false as stated: the request contains an entry of quantity 10
matched to a prescription item whose backing medicine has current stock 5,
yet the dispense call succeeds and commits - the preceding entry with the
negative quantity -100 passes the falsy and stock checks and raises the
stock to 105 before the over-request is processed. -/
theorem c4_counterexample :
    ({ prescriptionItemId := 10, quantity := 10 } : DispenseRequestItem) ∈ c4Req ∧
    c4State.prescription.items.find? (fun q => q.id == (10 : Nat)) =
      some { id := 10, medicineId := 1, quantity := 20, dispensedQty := 0 } ∧
    c4State.medicines.find? (fun m => m.id == (1 : Nat)) =
      some { id := 1, stockQuantity := 5
             movements := [{ movementType := StockMovementType.PURCHASE, quantity := 5 }] } ∧
    ((5 : Int) < 10) ∧
    dispense c4State c4Req 0 = Except.ok c4Final := by
  refine ⟨by decide, rfl, rfl, by decide, rfl⟩

/-- Request entries that match no prescription item are transparent to the
transaction loop: the loop computes the same result as on the request
restricted to its matched entries. -/
theorem dispenseItems_filter_matched (snap : List PrescriptionItem)
    (req : List DispenseRequestItem) :
    ∀ s : PharmacyState,
      dispenseItems snap s req =
        dispenseItems snap s (req.filter (fun r =>
          (snap.find? (fun q => q.id == r.prescriptionItemId)).isSome)) := by
  induction req with
  | nil =>
    intro s
    rfl
  | cons x rest ih =>
    intro s
    rw [dispenseItems_cons]
    cases hsnap : snap.find? (fun q => q.id == x.prescriptionItemId) with
    | none =>
      dsimp only
      rw [ih s]
      congr 1
      rw [List.filter_cons]
      simp [hsnap]
    | some pitem =>
      dsimp only
      have hkeep : ((x :: rest).filter (fun r =>
          (snap.find? (fun q => q.id == r.prescriptionItemId)).isSome)) =
          x :: rest.filter (fun r =>
            (snap.find? (fun q => q.id == r.prescriptionItemId)).isSome) := by
        rw [List.filter_cons]
        simp [hsnap]
      rw [hkeep, dispenseItems_cons, hsnap]
      dsimp only
      cases hmed : s.medicines.find? (fun m => m.id == pitem.medicineId) with
      | none => rfl
      | some med =>
        dsimp only
        by_cases hs : med.stockQuantity < x.quantity
        · rw [if_pos hs, if_pos hs]
        · rw [if_neg hs, if_neg hs]
          exact ih (dispenseApply s x med)

/-- C10: a dispense request whose entries all fail to match a prescription
item succeeds without error and without touching any medicine stock,
movement ledger or prescription item, and in general the transaction loop
treats a request exactly like the request filtered down to its matched
entries - unmatched entries are silently skipped. -/
theorem c10_unmatched_entries_skipped
    (s : PharmacyState) (req : List DispenseRequestItem) (now : Nat)
    (hne : req ≠ [])
    (hall : ∀ r ∈ req,
      s.prescription.items.find? (fun q => q.id == r.prescriptionItemId) = none) :
    (dispenseEndpoint s req now).2 = none ∧
    (dispenseEndpoint s req now).1.medicines = s.medicines ∧
    (dispenseEndpoint s req now).1.prescription.items = s.prescription.items ∧
    (∀ (snap : List PrescriptionItem) (s0 : PharmacyState)
        (req0 : List DispenseRequestItem),
      dispenseItems snap s0 req0 =
        dispenseItems snap s0 (req0.filter (fun r =>
          (snap.find? (fun q => q.id == r.prescriptionItemId)).isSome))) := by
  have hfilter : req.filter (fun r =>
      (s.prescription.items.find? (fun q => q.id == r.prescriptionItemId)).isSome) = [] := by
    rw [List.filter_eq_nil_iff]
    intro a ha
    simp [hall a ha]
  have hok : dispenseItems s.prescription.items s req = Except.ok s := by
    rw [dispenseItems_filter_matched s.prescription.items req s, hfilter]
    rfl
  have hnE : req.isEmpty = false := by
    cases req with
    | nil => exact absurd rfl hne
    | cons a l => rfl
  have hd : dispense s req now =
      Except.ok { s with prescription := { s.prescription with
        status :=
          if s.prescription.items.all (fun i => i.quantity ≤ i.dispensedQty) then
            PrescriptionStatus.DISPENSED
          else if s.prescription.items.any (fun i => 0 < i.dispensedQty) then
            PrescriptionStatus.PARTIALLY_DISPENSED
          else PrescriptionStatus.PENDING
        dispensedAt :=
          if s.prescription.items.all (fun i => i.quantity ≤ i.dispensedQty) then some now
          else none } } := by
    simp only [dispense, hnE, Bool.false_eq_true, if_false, hok]
  refine ⟨?_, ?_, ?_, fun snap s0 req0 => dispenseItems_filter_matched snap req0 s0⟩
  · simp [dispenseEndpoint, hd]
  · simp [dispenseEndpoint, hd]
  · simp [dispenseEndpoint, hd]

/-- Concrete input for the C10 witness: the single request entry references
prescription item 99, which does not exist. -/
def c10WitnessState : PharmacyState :=
  { medicines := [{ id := 1, stockQuantity := 5
                    movements := [{ movementType := StockMovementType.PURCHASE, quantity := 5 }] }]
    prescription :=
      { status := PrescriptionStatus.PENDING
        items := [{ id := 10, medicineId := 1, quantity := 2, dispensedQty := 0 }]
        dispensedAt := none } }

/-- Witness instantiating c10_unmatched_entries_skipped. -/
theorem c10_unmatched_entries_skipped_witness :
    (dispenseEndpoint c10WitnessState [{ prescriptionItemId := 99, quantity := 5 }] 0).2 =
      none ∧
    (dispenseEndpoint c10WitnessState [{ prescriptionItemId := 99, quantity := 5 }] 0).1.medicines =
      c10WitnessState.medicines := by
  have h := c10_unmatched_entries_skipped c10WitnessState
    [{ prescriptionItemId := 99, quantity := 5 }] 0 (by simp)
    (by intro r hr; rcases List.mem_singleton.mp hr with rfl; rfl)
  exact ⟨h.1, h.2.1⟩

end Pharmacy

namespace Radiology

/-- RadiologyOrderStatus enum from the Prisma schema (also the set the
status route declares as valid). -/
inductive OrderStatus
  | PENDING_PAYMENT
  | PAID
  | SCHEDULED
  | IN_PROGRESS
  | COMPLETED
  | CANCELLED
deriving DecidableEq, Repr

/-- RadiologyItemStatus enum from the Prisma schema. -/
inductive ItemStatus
  | PENDING
  | SCHEDULED
  | IN_PROGRESS
  | COMPLETED
deriving DecidableEq, Repr

/-- A RadiologyOrderItem row together with its optional RadiologyResult row
(the findings text stands for the whole result record; the result relation
is unique per item in the schema). -/
structure RadiologyOrderItem where
  id : Nat
  status : ItemStatus
  result : Option String
deriving DecidableEq, Repr

/-- A RadiologyOrder row with its items (amounts are not needed here). -/
structure RadiologyOrder where
  status : OrderStatus
  completedAt : Option Nat
  scheduledAt : Option Nat
  items : List RadiologyOrderItem
deriving DecidableEq, Repr

/-- POST /orders: at least one test required; the order starts at
PENDING_PAYMENT with one PENDING item per test and no results. -/
def createOrder (testIds : List Nat) : Except String RadiologyOrder :=
  if testIds.isEmpty then Except.error "Patient ID and at least one test are required"
  else
    Except.ok
      { status := OrderStatus.PENDING_PAYMENT
        completedAt := none
        scheduledAt := none
        items := testIds.map (fun t =>
          { id := t, status := ItemStatus.PENDING, result := none }) }

/-- POST /results: empty findings fail the falsy validation; a missing item
is a 404; a second result for the same item violates the unique index on
radiologyOrderItemId and aborts the transaction.  Otherwise the result row
is created, the item set to COMPLETED, and if no item of the order remains
non-COMPLETED the parent is set to COMPLETED with a completion timestamp,
all inside one transaction. -/
def recordResult (o : RadiologyOrder) (radiologyOrderItemId : Nat) (findings : String)
    (now : Nat) : Except String RadiologyOrder :=
  if findings = "" then Except.error "Order item ID and findings are required"
  else
    match o.items.find? (fun i => i.id == radiologyOrderItemId) with
    | none => Except.error "Order item not found"
    | some item =>
      if item.result.isSome then Except.error "Result already exists for this order item"
      else
        let items2 := o.items.map (fun i =>
          if i.id == radiologyOrderItemId then
            { i with status := ItemStatus.COMPLETED, result := some findings }
          else i)
        let pendingItems := items2.countP (fun i => i.status != ItemStatus.COMPLETED)
        if pendingItems = 0 then
          Except.ok { o with
            items := items2
            status := OrderStatus.COMPLETED
            completedAt := some now }
        else
          Except.ok { o with items := items2 }

/-- PATCH /orders/:id/status: any of the six declared statuses is accepted
with no check of the current status; SCHEDULED stores the given schedule
time and COMPLETED stamps completedAt; nothing else is touched. -/
def updateOrderStatus (o : RadiologyOrder) (status : OrderStatus)
    (scheduledAt : Option Nat) (now : Nat) : Except String RadiologyOrder :=
  if status = OrderStatus.SCHEDULED ∧ scheduledAt.isSome then
    Except.ok { o with status := status, scheduledAt := scheduledAt }
  else if status = OrderStatus.COMPLETED then
    Except.ok { o with status := status, completedAt := some now }
  else
    Except.ok { o with status := status }

/-- The C5 counterexample order: PENDING_PAYMENT with one PENDING item. -/
def c5Order : RadiologyOrder :=
  { status := OrderStatus.PENDING_PAYMENT
    completedAt := none
    scheduledAt := none
    items := [{ id := 1, status := ItemStatus.PENDING, result := none }] }

def c5After : RadiologyOrder :=
  { status := OrderStatus.COMPLETED
    completedAt := some 7
    scheduledAt := none
    items := [{ id := 1, status := ItemStatus.PENDING, result := none }] }

/-- C5 is false as stated: the unguarded status route turns the order
COMPLETED while its only item is still PENDING with no result, so a
reachable state has status COMPLETED without every item being COMPLETED
with a result. -/
theorem c5_counterexample :
    updateOrderStatus c5Order OrderStatus.COMPLETED none 7 = Except.ok c5After ∧
    c5After.status = OrderStatus.COMPLETED ∧
    ¬(∀ i ∈ c5After.items, i.status = ItemStatus.COMPLETED ∧ i.result.isSome) := by
  refine ⟨rfl, rfl, ?_⟩
  intro h
  have := h { id := 1, status := ItemStatus.PENDING, result := none } (by decide)
  exact absurd this.1 (by decide)

/-- Radiology orders reachable through order creation and result recording
(the direct status route is deliberately excluded, as the counterexample
shows it breaks the completeness equivalence). -/
inductive ResultReachable : RadiologyOrder → Prop
  | create (testIds : List Nat) (o : RadiologyOrder)
      (hok : createOrder testIds = Except.ok o) : ResultReachable o
  | record (o : RadiologyOrder) (itemId : Nat) (findings : String) (now : Nat)
      (o2 : RadiologyOrder) (hr : ResultReachable o)
      (hok : recordResult o itemId findings now = Except.ok o2) : ResultReachable o2

/-- The invariant maintained by creation and result recording. -/
def OrderInv (o : RadiologyOrder) : Prop :=
  o.items ≠ [] ∧
  (∀ i ∈ o.items, i.status = ItemStatus.COMPLETED → i.result.isSome) ∧
  (o.status = OrderStatus.COMPLETED ↔ ∀ i ∈ o.items, i.status = ItemStatus.COMPLETED)

theorem orderInv_create (testIds : List Nat) (o : RadiologyOrder)
    (hok : createOrder testIds = Except.ok o) : OrderInv o := by
  by_cases hne : testIds.isEmpty
  · simp [createOrder, hne] at hok
  · simp only [createOrder, hne, Bool.false_eq_true, if_false, Except.ok.injEq] at hok
    subst hok
    refine ⟨?_, ?_, ?_⟩
    · simp [List.map_eq_nil_iff]
      intro h
      subst h
      exact hne rfl
    · intro i hi hc
      obtain ⟨t, _, rfl⟩ := List.mem_map.mp hi
      exact absurd hc (by simp)
    · constructor
      · intro h
        exact absurd h (by simp)
      · intro h
        cases testIds with
        | nil => exact absurd rfl hne
        | cons a l =>
          have := h { id := a, status := ItemStatus.PENDING, result := none }
            (by simp [List.mem_map])
          exact absurd this (by simp)

theorem orderInv_record (o : RadiologyOrder) (itemId : Nat) (findings : String) (now : Nat)
    (o2 : RadiologyOrder) (hok : recordResult o itemId findings now = Except.ok o2)
    (ih : OrderInv o) : OrderInv o2 := by
  obtain ⟨hne, hires, hiff⟩ := ih
  by_cases hfd : findings = ""
  · simp [recordResult, hfd] at hok
  · simp only [recordResult, hfd, Bool.false_eq_true, if_false] at hok
    cases hfind : o.items.find? (fun i => i.id == itemId) with
    | none => rw [hfind] at hok; exact absurd hok (by simp)
    | some item =>
      rw [hfind] at hok
      dsimp only at hok
      by_cases hres : item.result.isSome
      · rw [if_pos hres] at hok
        exact absurd hok (by simp)
      · rw [if_neg hres] at hok
        set items2 := o.items.map (fun i =>
          if i.id == itemId then
            { i with status := ItemStatus.COMPLETED, result := some findings }
          else i) with hitems2
        have hlist : o2.items = items2 := by
          by_cases hcnt : items2.countP (fun i => i.status != ItemStatus.COMPLETED) = 0
          · rw [if_pos hcnt] at hok
            cases hok
            rfl
          · rw [if_neg hcnt] at hok
            cases hok
            rfl
        have hne2 : o2.items ≠ [] := by
          rw [hlist, hitems2]
          simp [List.map_eq_nil_iff]
          intro h
          exact hne h
        have hires2 : ∀ i ∈ o2.items, i.status = ItemStatus.COMPLETED → i.result.isSome := by
          rw [hlist, hitems2]
          intro i hi hc
          obtain ⟨j, hj, rfl⟩ := List.mem_map.mp hi
          by_cases hcond : j.id == itemId
          · simp [hcond]
          · simp only [hcond, Bool.false_eq_true, if_false] at hc ⊢
            exact hires j hj hc
        refine ⟨hne2, hires2, ?_⟩
        by_cases hcnt : items2.countP (fun i => i.status != ItemStatus.COMPLETED) = 0
        · rw [if_pos hcnt] at hok
          cases hok
          constructor
          · intro _
            intro i hi
            have := List.countP_eq_zero.mp hcnt i hi
            simpa using this
          · intro _
            rfl
        · rw [if_neg hcnt] at hok
          cases hok
          dsimp only
          have hnotall : ¬∀ i ∈ items2, i.status = ItemStatus.COMPLETED := by
            intro hall
            apply hcnt
            rw [List.countP_eq_zero]
            intro i hi
            simp [hall i hi]
          constructor
          · intro hst
            have hallold : ∀ i ∈ o.items, i.status = ItemStatus.COMPLETED := hiff.mp hst
            exfalso
            apply hnotall
            intro i hi
            obtain ⟨j, hj, rfl⟩ := List.mem_map.mp hi
            by_cases hcond : j.id == itemId
            · simp [hcond]
            · simp only [hcond, Bool.false_eq_true, if_false]
              exact hallold j hj
          · intro hall
            exact absurd hall hnotall

theorem orderInv_reachable (o : RadiologyOrder) (h : ResultReachable o) : OrderInv o := by
  induction h with
  | create testIds o hok => exact orderInv_create testIds o hok
  | record o itemId findings now o2 hr hok ih => exact orderInv_record o itemId findings now o2 hok ih

end Radiology

namespace Pharmacy

/-- The dispense transaction never reads the prescription status: running it
from a state whose prescription status was replaced yields the same
intermediate states up to that replaced field. -/
theorem dispenseItems_status_independent (snap : List PrescriptionItem)
    (req : List DispenseRequestItem) :
    ∀ (s : PharmacyState) (st : PrescriptionStatus),
      dispenseItems snap { s with prescription := { s.prescription with status := st } } req =
        (dispenseItems snap s req).map
          (fun s2 => { s2 with prescription := { s2.prescription with status := st } }) := by
  induction req with
  | nil =>
    intro s st
    rfl
  | cons x rest ih =>
    intro s st
    rw [dispenseItems_cons, dispenseItems_cons]
    cases hsnap : snap.find? (fun p => p.id == x.prescriptionItemId) with
    | none =>
      dsimp only
      exact ih s st
    | some pitem =>
      dsimp only
      cases hmed : s.medicines.find? (fun m => m.id == pitem.medicineId) with
      | none => rfl
      | some med =>
        dsimp only
        by_cases hs : med.stockQuantity < x.quantity
        · rw [if_pos hs, if_pos hs]
          rfl
        · rw [if_neg hs, if_neg hs]
          have hstep :
              dispenseApply { s with prescription := { s.prescription with status := st } } x med =
                { dispenseApply s x med with
                  prescription := { (dispenseApply s x med).prescription with status := st } } := rfl
          rw [hstep]
          exact ih (dispenseApply s x med) st

/-- The dispense route gives the same response and the same final state
whatever the prescription status field holds: the handler checks only
existence and tenant scope, never the status. -/
theorem dispense_ignores_prescription_status (s : PharmacyState) (st : PrescriptionStatus)
    (req : List DispenseRequestItem) (now : Nat) :
    dispense { s with prescription := { s.prescription with status := st } } req now =
      dispense s req now := by
  by_cases hne : req.isEmpty
  · simp [dispense, hne]
  · simp only [dispense, hne, Bool.false_eq_true, if_false]
    rw [show ({ s with prescription := { s.prescription with status := st } } :
      PharmacyState).prescription.items = s.prescription.items from rfl]
    rw [dispenseItems_status_independent s.prescription.items req s st]
    cases dispenseItems s.prescription.items s req with
    | error e => rfl
    | ok s2 => rfl

end Pharmacy

namespace Radiology

/-- C5 amended, operative part: a successfully recorded result marks the
item COMPLETED and attaches the result; the parent order flips to COMPLETED
with a completion timestamp exactly when no item remains non-COMPLETED
after the write, and is left untouched otherwise; and the completeness
equivalence holds in every state reachable through creation and result
recording (the direct status route, excluded here, breaks it - see the
counterexample). -/
theorem c5_result_completion
    (o : RadiologyOrder) (itemId : Nat) (findings : String) (now : Nat)
    (item : RadiologyOrderItem) (o2 : RadiologyOrder)
    (hfd : findings ≠ "")
    (hfind : o.items.find? (fun i => i.id == itemId) = some item)
    (hres : item.result = none)
    (hok : recordResult o itemId findings now = Except.ok o2) :
    (∀ i ∈ o2.items, i.id = itemId →
      i.status = ItemStatus.COMPLETED ∧ i.result = some findings) ∧
    ((∀ i ∈ o2.items, i.status = ItemStatus.COMPLETED) →
      o2.status = OrderStatus.COMPLETED ∧ o2.completedAt = some now) ∧
    ((¬∀ i ∈ o2.items, i.status = ItemStatus.COMPLETED) →
      o2.status = o.status ∧ o2.completedAt = o.completedAt) ∧
    (∀ o3, ResultReachable o3 →
      (o3.status = OrderStatus.COMPLETED ↔
        ∀ i ∈ o3.items, i.status = ItemStatus.COMPLETED ∧ i.result.isSome)) := by
  have hresB : item.result.isSome = false := by
    rw [hres]
    rfl
  simp only [recordResult, hfd, Bool.false_eq_true, if_false, hfind, hresB] at hok
  set items2 := o.items.map (fun i =>
    if i.id == itemId then
      { i with status := ItemStatus.COMPLETED, result := some findings }
    else i) with hitems2
  have hlist : o2.items = items2 := by
    by_cases hcnt : items2.countP (fun i => i.status != ItemStatus.COMPLETED) = 0
    · rw [if_pos hcnt] at hok
      cases hok
      rfl
    · rw [if_neg hcnt] at hok
      cases hok
      rfl
  have hupd : ∀ i ∈ o2.items, i.id = itemId →
      i.status = ItemStatus.COMPLETED ∧ i.result = some findings := by
    rw [hlist, hitems2]
    intro i hi hid
    obtain ⟨j, hj, rfl⟩ := List.mem_map.mp hi
    by_cases hcond : j.id == itemId
    · simp [hcond]
    · simp only [hcond, Bool.false_eq_true, if_false] at hid ⊢
      exact absurd (beq_iff_eq.mpr hid) hcond
  refine ⟨hupd, ?_, ?_, ?_⟩
  · intro hall
    by_cases hcnt : items2.countP (fun i => i.status != ItemStatus.COMPLETED) = 0
    · rw [if_pos hcnt] at hok
      cases hok
      exact ⟨rfl, rfl⟩
    · exfalso
      apply hcnt
      rw [List.countP_eq_zero]
      intro i hi
      rw [hlist] at hall
      simp [hall i hi]
  · intro hnot
    by_cases hcnt : items2.countP (fun i => i.status != ItemStatus.COMPLETED) = 0
    · exfalso
      apply hnot
      rw [hlist]
      intro i hi
      have := List.countP_eq_zero.mp hcnt i hi
      simpa using this
    · rw [if_neg hcnt] at hok
      cases hok
      exact ⟨rfl, rfl⟩
  · intro o3 hr
    obtain ⟨hne3, hires3, hiff3⟩ := orderInv_reachable o3 hr
    constructor
    · intro hst i hi
      exact ⟨hiff3.mp hst i hi, hires3 i hi (hiff3.mp hst i hi)⟩
    · intro hall
      exact hiff3.mpr (fun i hi => (hall i hi).1)

end Radiology

namespace Radiology

/-- Concrete order for the C5 witness: two pending items. -/
def c5WOrder : RadiologyOrder :=
  { status := OrderStatus.PENDING_PAYMENT
    completedAt := none
    scheduledAt := none
    items := [{ id := 1, status := ItemStatus.PENDING, result := none },
              { id := 2, status := ItemStatus.PENDING, result := none }] }

/-- The state after recording a result for item 1 of c5WOrder. -/
def c5WAfter : RadiologyOrder :=
  { status := OrderStatus.PENDING_PAYMENT
    completedAt := none
    scheduledAt := none
    items := [{ id := 1, status := ItemStatus.COMPLETED, result := some "clear" },
              { id := 2, status := ItemStatus.PENDING, result := none }] }

/-- Witness instantiating c5_result_completion: with a sibling still
pending, the parent order status and completion timestamp are untouched. -/
theorem c5_result_completion_witness :
    c5WAfter.status = c5WOrder.status ∧ c5WAfter.completedAt = c5WOrder.completedAt := by
  have h := c5_result_completion c5WOrder 1 "clear" 3
    { id := 1, status := ItemStatus.PENDING, result := none } c5WAfter
    (by decide) rfl rfl (by rfl)
  refine h.2.2.1 ?_
  intro hall
  have h2 := hall { id := 2, status := ItemStatus.PENDING, result := none } (by decide)
  exact absurd h2 (by decide)

/-- The C6 counterexample order: PENDING_PAYMENT, nothing paid. -/
def c6Order : RadiologyOrder :=
  { status := OrderStatus.PENDING_PAYMENT
    completedAt := none
    scheduledAt := none
    items := [{ id := 1, status := ItemStatus.PENDING, result := none }] }

/-- C6 is false as stated: moving the PENDING_PAYMENT order c6Order straight
into the fulfillment state SCHEDULED succeeds - the mutation is accepted,
not rejected, so payment-gating is not enforced at the order-mutation
boundary. -/
theorem c6_counterexample :
    c6Order.status = OrderStatus.PENDING_PAYMENT ∧
    updateOrderStatus c6Order OrderStatus.SCHEDULED none 0 =
      Except.ok { c6Order with status := OrderStatus.SCHEDULED } ∧
    ({ c6Order with status := OrderStatus.SCHEDULED }).status = OrderStatus.SCHEDULED := by
  refine ⟨rfl, ?_, rfl⟩
  simp [updateOrderStatus]

/-- C6 amended: there is no payment gating at the order-mutation boundary.
The status route accepts every declared status from every current status
(so SCHEDULED or IN_PROGRESS is reachable directly from PENDING_PAYMENT),
and the dispense handler never reads the prescription status at all. -/
theorem c6_no_payment_gating :
    (∀ (o : RadiologyOrder) (st : OrderStatus) (sched : Option Nat) (now : Nat),
      ∃ o2, updateOrderStatus o st sched now = Except.ok o2 ∧ o2.status = st) ∧
    (∀ (s : Pharmacy.PharmacyState) (st : Pharmacy.PrescriptionStatus)
        (req : List Pharmacy.DispenseRequestItem) (now : Nat),
      Pharmacy.dispense { s with prescription := { s.prescription with status := st } } req now =
        Pharmacy.dispense s req now) := by
  constructor
  · intro o st sched now
    unfold updateOrderStatus
    by_cases h1 : st = OrderStatus.SCHEDULED ∧ sched.isSome
    · rw [if_pos h1]
      exact ⟨_, rfl, rfl⟩
    · rw [if_neg h1]
      by_cases h2 : st = OrderStatus.COMPLETED
      · rw [if_pos h2]
        exact ⟨_, rfl, rfl⟩
      · rw [if_neg h2]
        exact ⟨_, rfl, rfl⟩
  · intro s st req now
    exact Pharmacy.dispense_ignores_prescription_status s st req now

end Radiology

namespace Helpers

/-- substring(k): drop the first k characters. -/
def strDrop (s : String) (k : Nat) : String := String.mk (s.data.drop k)

/-- startsWith: the characters of the second string lead the first. -/
def strStartsWith (s tag : String) : Bool := tag.data.isPrefixOf s.data

/-- parseInt on base 10: the leading run of digits, NaN (none) when the
string does not start with a digit. -/
def parseIntNat (s : String) : Option Nat :=
  let ds := s.data.takeWhile Char.isDigit
  if ds.isEmpty then none
  else some (ds.foldl (fun a c => a * 10 + (c.toNat - 48)) 0)

/-- split on the dash character. -/
def splitDashAux : List Char → List Char → List String
  | [], cur => [String.mk cur.reverse]
  | c :: rest, cur =>
    if c = '-' then String.mk cur.reverse :: splitDashAux rest []
    else splitDashAux rest (c :: cur)

def splitOnDash (s : String) : List String := splitDashAux s.data []

/-- String(n).padStart(3, the zero character). -/
def padStart3 (n : Nat) : String :=
  let s := toString n
  if s.length ≥ 3 then s else String.mk (List.replicate (3 - s.length) '0') ++ s

/-- An OpdToken row as the token-number generator sees it: the token number
and the day (tokenDate collapsed to a day index; the generator filters on
the day window).  Rows are listed in creation order, so findFirst with
orderBy createdAt desc returns the last element. -/
structure OpdTokenRow where
  tokenNumber : String
  tokenDate : Nat
deriving DecidableEq, Repr

/-- generatePatientId: read the most recently created patient of the
hospital, parse the digits after the P, increment and zero-pad; P001 when
the hospital has no patient.  An unparsable suffix propagates NaN exactly as
the template string would. -/
def generatePatientId (patients : List String) : String :=
  match patients.getLast? with
  | none => "P001"
  | some pid =>
    match parseIntNat (strDrop pid 1) with
    | some n => "P" ++ padStart3 (n + 1)
    | none => "PNaN"

/-- generateOpdToken: same shape, scoped to tokens whose tokenDate falls on
the current day, parsing the digits after OPD. -/
def generateOpdToken (tokens : List OpdTokenRow) (today : Nat) : String :=
  match (tokens.filter (fun t => t.tokenDate == today)).getLast? with
  | none => "OPD001"
  | some t =>
    match parseIntNat (strDrop t.tokenNumber 3) with
    | some n => "OPD" ++ padStart3 (n + 1)
    | none => "OPDNaN"

/-- generateOrganizationCode: read the most recently created hospital, parse
the digits after the H and increment (no explicit padding in the source);
H101 when no hospital exists. -/
def generateOrganizationCode (hospitals : List String) : String :=
  match hospitals.getLast? with
  | none => "H101"
  | some code =>
    match parseIntNat (strDrop code 1) with
    | some n => "H" ++ toString (n + 1)
    | none => "HNaN"

/-- The shared body of generateBillNumber, generateLabOrderNumber,
generateRadiologyOrderNumber, generatePrescriptionNumber,
generateConsultationNumber, generateAdmissionNumber and generatePoNumber:
scope by the TAG-YYYYMMDD lead, read the most recently created number in
the scope, split on the dash and parse the third component, increment and
zero-pad; TAG-YYYYMMDD-001 when the scope is empty. -/
def generateTaggedNumber (tag : String) (existing : List String) (dateStr : String) : String :=
  match (existing.filter (fun n => strStartsWith n (tag ++ "-" ++ dateStr))).getLast? with
  | none => tag ++ "-" ++ dateStr ++ "-001"
  | some last =>
    match parseIntNat ((splitOnDash last).getD 2 "") with
    | some n => tag ++ "-" ++ dateStr ++ "-" ++ padStart3 (n + 1)
    | none => tag ++ "-" ++ dateStr ++ "-NaN"

def generateBillNumber (existing : List String) (dateStr : String) : String :=
  generateTaggedNumber "BILL" existing dateStr

def generateLabOrderNumber (existing : List String) (dateStr : String) : String :=
  generateTaggedNumber "LAB" existing dateStr

def generateAdmissionNumber (existing : List String) (dateStr : String) : String :=
  generateTaggedNumber "ADM" existing dateStr

/-- The largest parsable numeric suffix (after dropping dropCount leading
characters) among a list of identifiers. -/
def maxSuffix (dropCount : Nat) (ids : List String) : Nat :=
  (ids.filterMap (fun s => parseIntNat (strDrop s dropCount))).foldr max 0

/-- The largest parsable third dash-component among a list of tagged
numbers. -/
def maxTaggedSuffix (ids : List String) : Nat :=
  (ids.filterMap (fun s => parseIntNat ((splitOnDash s).getD 2 ""))).foldr max 0

/-- C7: with an empty (tenant, kind, date) scope every generator returns its
defined first value (P001, OPD001, H101, TAG-YYYYMMDD-001); with a nonempty
scope whose most recently created identifier carries the highest numeric
suffix of the scope - which is how every scope minted by these generators
looks - the returned value is that highest suffix incremented and
zero-padded (organization codes are emitted without explicit padding, which
coincides with zero-padding from H101 up). -/
theorem c7_sequence_generation :
    (generatePatientId [] = "P001") ∧
    (∀ (tokens : List OpdTokenRow) (today : Nat),
      tokens.filter (fun t => t.tokenDate == today) = [] →
      generateOpdToken tokens today = "OPD001") ∧
    (generateOrganizationCode [] = "H101") ∧
    (∀ (tag : String) (existing : List String) (dateStr : String),
      existing.filter (fun n => strStartsWith n (tag ++ "-" ++ dateStr)) = [] →
      generateTaggedNumber tag existing dateStr = tag ++ "-" ++ dateStr ++ "-001") ∧
    (∀ (patients : List String) (p : String) (n : Nat),
      patients.getLast? = some p →
      parseIntNat (strDrop p 1) = some n →
      maxSuffix 1 patients = n →
      generatePatientId patients = "P" ++ padStart3 (maxSuffix 1 patients + 1)) ∧
    (∀ (tokens : List OpdTokenRow) (today : Nat) (t : OpdTokenRow) (n : Nat),
      (tokens.filter (fun t2 => t2.tokenDate == today)).getLast? = some t →
      parseIntNat (strDrop t.tokenNumber 3) = some n →
      maxSuffix 3 ((tokens.filter (fun t2 => t2.tokenDate == today)).map
        (fun t2 => t2.tokenNumber)) = n →
      generateOpdToken tokens today =
        "OPD" ++ padStart3 (maxSuffix 3 ((tokens.filter (fun t2 => t2.tokenDate == today)).map
          (fun t2 => t2.tokenNumber)) + 1)) ∧
    (∀ (hospitals : List String) (code : String) (n : Nat),
      hospitals.getLast? = some code →
      parseIntNat (strDrop code 1) = some n →
      maxSuffix 1 hospitals = n →
      generateOrganizationCode hospitals = "H" ++ toString (maxSuffix 1 hospitals + 1)) ∧
    (∀ (tag : String) (existing : List String) (dateStr : String) (last : String) (n : Nat),
      (existing.filter (fun m => strStartsWith m (tag ++ "-" ++ dateStr))).getLast? = some last →
      parseIntNat ((splitOnDash last).getD 2 "") = some n →
      maxTaggedSuffix (existing.filter (fun m => strStartsWith m (tag ++ "-" ++ dateStr))) = n →
      generateTaggedNumber tag existing dateStr =
        tag ++ "-" ++ dateStr ++ "-" ++
          padStart3 (maxTaggedSuffix
            (existing.filter (fun m => strStartsWith m (tag ++ "-" ++ dateStr))) + 1)) := by
  refine ⟨rfl, ?_, rfl, ?_, ?_, ?_, ?_, ?_⟩
  · intro tokens today hempty
    simp [generateOpdToken, hempty]
  · intro tag existing dateStr hempty
    simp [generateTaggedNumber, hempty]
  · intro patients p n hlast hparse hmax
    rw [hmax]
    simp [generatePatientId, hlast, hparse]
  · intro tokens today t n hlast hparse hmax
    rw [hmax]
    simp [generateOpdToken, hlast, hparse]
  · intro hospitals code n hlast hparse hmax
    rw [hmax]
    simp [generateOrganizationCode, hlast, hparse]
  · intro tag existing dateStr last n hlast hparse hmax
    rw [hmax]
    simp only [List.getD, List.get?_eq_getElem?] at hparse
    simp [generateTaggedNumber, hlast, hparse]

/-- Witness instantiating c7_sequence_generation on concrete scopes. -/
theorem c7_sequence_generation_witness :
    generatePatientId [] = "P001" ∧
    generatePatientId ["P001", "P002"] = "P003" ∧
    generateOpdToken [{ tokenNumber := "OPD007", tokenDate := 3 }] 9 = "OPD001" ∧
    generateOpdToken [{ tokenNumber := "OPD002", tokenDate := 9 },
                      { tokenNumber := "OPD005", tokenDate := 8 },
                      { tokenNumber := "OPD003", tokenDate := 9 }] 9 = "OPD004" ∧
    generateBillNumber ["BILL-20240101-004", "BILL-20240102-001"] "20240101" =
      "BILL-20240101-005" := by
  have h := c7_sequence_generation
  refine ⟨h.1, ?_, ?_, ?_, ?_⟩
  · have h5 := h.2.2.2.2.1 ["P001", "P002"] "P002" 2 rfl (by decide) (by decide)
    rw [h5]
    decide
  · exact h.2.1 [{ tokenNumber := "OPD007", tokenDate := 3 }] 9 (by decide)
  · have h6 := h.2.2.2.2.2.1
      [{ tokenNumber := "OPD002", tokenDate := 9 },
       { tokenNumber := "OPD005", tokenDate := 8 },
       { tokenNumber := "OPD003", tokenDate := 9 }] 9
      { tokenNumber := "OPD003", tokenDate := 9 } 3 (by decide) (by decide) (by decide)
    rw [h6]
    decide
  · have h8 := h.2.2.2.2.2.2.2 "BILL" ["BILL-20240101-004", "BILL-20240102-001"] "20240101"
      "BILL-20240101-004" 4 (by decide) (by decide) (by decide)
    rw [show generateBillNumber ["BILL-20240101-004", "BILL-20240102-001"] "20240101" =
      generateTaggedNumber "BILL" ["BILL-20240101-004", "BILL-20240102-001"] "20240101" from rfl]
    rw [h8]
    decide

end Helpers

namespace Opd

/-- TokenStatus enum from the Prisma schema. -/
inductive TokenStatus
  | WAITING
  | CALLED
  | IN_CONSULTATION
  | COMPLETED
  | CANCELLED
  | NO_SHOW
deriving DecidableEq, Repr

/-- An OpdToken row (tokenDate collapsed to a day index; check-in and
completion timestamps elided). -/
structure OpdToken where
  id : Nat
  doctorId : Nat
  tokenNumber : String
  tokenDate : Nat
  status : TokenStatus
  priority : Int
  callTime : Option Nat
deriving DecidableEq, Repr

/-- The orderBy of the call-next findFirst: a comes strictly before b when a
has higher priority, or equal priority and smaller tokenNumber (the column
is a string, compared lexicographically). -/
def beats (a b : OpdToken) : Prop :=
  b.priority < a.priority ∨ (a.priority = b.priority ∧ a.tokenNumber < b.tokenNumber)

instance (a b : OpdToken) : Decidable (beats a b) := by
  unfold beats
  infer_instance

/-- findFirst with the call-next orderBy: scan for a row no other row
beats. -/
def selectTop : List OpdToken → Option OpdToken
  | [] => none
  | t :: rest =>
    match selectTop rest with
    | none => some t
    | some b => if beats b t then some b else some t

/-- POST /call-next: find the top WAITING token of the doctor for today and
flip it to CALLED with a call timestamp; answer with null and change
nothing when no one is waiting. -/
def callNext (tokens : List OpdToken) (doctorId today now : Nat) :
    Option OpdToken × List OpdToken :=
  let candidates := tokens.filter (fun t =>
    t.doctorId == doctorId && t.tokenDate == today && t.status == TokenStatus.WAITING)
  match selectTop candidates with
  | none => (none, tokens)
  | some nt =>
    (some { nt with status := TokenStatus.CALLED, callTime := some now },
     tokens.map (fun t =>
       if t.id == nt.id then { t with status := TokenStatus.CALLED, callTime := some now }
       else t))

theorem selectTop_eq_none {l : List OpdToken} (h : selectTop l = none) : l = [] := by
  cases l with
  | nil => rfl
  | cons t rest =>
    rw [show selectTop (t :: rest) =
      (match selectTop rest with
        | none => some t
        | some b => if beats b t then some b else some t) from rfl] at h
    cases h2 : selectTop rest with
    | none =>
      rw [h2] at h
      exact absurd h (by simp)
    | some bb =>
      rw [h2] at h
      dsimp only at h
      by_cases hb : beats bb t
      · rw [if_pos hb] at h
        exact absurd h (by simp)
      · rw [if_neg hb] at h
        exact absurd h (by simp)

theorem beats_irrefl (t : OpdToken) : ¬beats t t := by
  unfold beats
  simp

theorem beats_asymm {a b : OpdToken} (h1 : beats a b) (h2 : beats b a) : False := by
  unfold beats at h1 h2
  rcases h1 with h1 | ⟨e1, l1⟩ <;> rcases h2 with h2 | ⟨e2, l2⟩
  · exact absurd h1 (lt_asymm h2)
  · exact absurd h1 (e2 ▸ lt_irrefl _)
  · exact absurd h2 (e1 ▸ lt_irrefl _)
  · exact absurd l1 (lt_asymm l2)

/-- The lexicographic order shifts across a non-beaten element. -/
theorem beats_shift {u t b : OpdToken} (hut : beats u t) (hbt : ¬beats b t) : beats u b := by
  unfold beats at *
  push_neg at hbt
  obtain ⟨hb1, hb2⟩ := hbt
  rcases hut with h1 | ⟨e, ltn⟩
  · exact Or.inl (lt_of_le_of_lt hb1 h1)
  · rcases lt_or_eq_of_le hb1 with hlt | heq
    · exact Or.inl (e ▸ hlt)
    · refine Or.inr ⟨e.trans heq.symm, ?_⟩
      exact lt_of_lt_of_le ltn (hb2 heq)

theorem selectTop_mem (l : List OpdToken) :
    ∀ b : OpdToken, selectTop l = some b → b ∈ l := by
  induction l with
  | nil =>
    intro b h
    exact absurd h (by simp [selectTop])
  | cons t rest ih =>
    intro b h
    rw [show selectTop (t :: rest) =
      (match selectTop rest with
        | none => some t
        | some b => if beats b t then some b else some t) from rfl] at h
    cases hrest : selectTop rest with
    | none =>
      rw [hrest] at h
      cases h
      exact List.mem_cons_self t rest
    | some b2 =>
      rw [hrest] at h
      dsimp only at h
      by_cases hb : beats b2 t
      · rw [if_pos hb] at h
        cases h
        exact List.mem_cons_of_mem t (ih b hrest)
      · rw [if_neg hb] at h
        cases h
        exact List.mem_cons_self t rest

theorem selectTop_not_beaten (l : List OpdToken) :
    ∀ b : OpdToken, selectTop l = some b → ∀ u ∈ l, ¬beats u b := by
  induction l with
  | nil =>
    intro b h u hu
    exact absurd hu (List.not_mem_nil u)
  | cons t rest ih =>
    intro b h u hu
    rw [show selectTop (t :: rest) =
      (match selectTop rest with
        | none => some t
        | some b => if beats b t then some b else some t) from rfl] at h
    cases hrest : selectTop rest with
    | none =>
      rw [hrest] at h
      cases h
      have hnil : rest = [] := selectTop_eq_none hrest
      subst hnil
      rcases List.mem_cons.mp hu with rfl | hu2
      · exact beats_irrefl u
      · exact absurd hu2 (List.not_mem_nil u)
    | some b2 =>
      rw [hrest] at h
      dsimp only at h
      by_cases hb : beats b2 t
      · rw [if_pos hb] at h
        cases h
        rcases List.mem_cons.mp hu with rfl | hu2
        · intro hub
          exact beats_asymm hub hb
        · exact ih b hrest u hu2
      · rw [if_neg hb] at h
        cases h
        rcases List.mem_cons.mp hu with rfl | hu2
        · exact beats_irrefl u
        · intro hub
          exact absurd (beats_shift hub hb) (ih b2 hrest u hu2)

/-- C8: when the doctor has at least one WAITING token today and waiting
tokens are not duplicated on (priority, tokenNumber) - the schema makes
(tokenNumber, day) unique per hospital - call-next picks the WAITING token
of that doctor and day that is maximal under priority descending then
tokenNumber ascending, and answers with it flipped to CALLED carrying the
call timestamp. -/
theorem c8_call_next
    (tokens : List OpdToken) (doctorId today now : Nat)
    (w : OpdToken) (hw : w ∈ tokens)
    (hwdoc : w.doctorId = doctorId) (hwdate : w.tokenDate = today)
    (hwstat : w.status = TokenStatus.WAITING)
    (hdist : ∀ a ∈ tokens, ∀ b2 ∈ tokens,
      a.doctorId = doctorId → a.tokenDate = today → a.status = TokenStatus.WAITING →
      b2.doctorId = doctorId → b2.tokenDate = today → b2.status = TokenStatus.WAITING →
      a.priority = b2.priority → a.tokenNumber = b2.tokenNumber → a = b2) :
    ∃ best,
      best ∈ tokens ∧
      best.doctorId = doctorId ∧ best.tokenDate = today ∧
      best.status = TokenStatus.WAITING ∧
      (∀ u ∈ tokens, u.doctorId = doctorId → u.tokenDate = today →
        u.status = TokenStatus.WAITING → u ≠ best →
        (u.priority < best.priority ∨
          (best.priority = u.priority ∧ best.tokenNumber < u.tokenNumber))) ∧
      (callNext tokens doctorId today now).1 =
        some { best with status := TokenStatus.CALLED, callTime := some now } := by
  have hwc : w ∈ tokens.filter (fun t =>
      t.doctorId == doctorId && t.tokenDate == today && t.status == TokenStatus.WAITING) := by
    rw [List.mem_filter]
    exact ⟨hw, by simp [hwdoc, hwdate, hwstat]⟩
  cases hsel : selectTop (tokens.filter (fun t =>
      t.doctorId == doctorId && t.tokenDate == today && t.status == TokenStatus.WAITING)) with
  | none =>
    rw [selectTop_eq_none hsel] at hwc
    exact absurd hwc (List.not_mem_nil w)
  | some best =>
    have hbestc := selectTop_mem _ best hsel
    have hbmem : best ∈ tokens := (List.mem_filter.mp hbestc).1
    have hbprops := (List.mem_filter.mp hbestc).2
    have hbdoc : best.doctorId = doctorId := by
      have := hbprops
      simp only [Bool.and_eq_true, beq_iff_eq] at this
      exact this.1.1
    have hbdate : best.tokenDate = today := by
      have := hbprops
      simp only [Bool.and_eq_true, beq_iff_eq] at this
      exact this.1.2
    have hbstat : best.status = TokenStatus.WAITING := by
      have := hbprops
      simp only [Bool.and_eq_true, beq_iff_eq] at this
      exact this.2
    refine ⟨best, hbmem, hbdoc, hbdate, hbstat, ?_, ?_⟩
    · intro u hu hudoc hudate hustat hne
      have huc : u ∈ tokens.filter (fun t =>
          t.doctorId == doctorId && t.tokenDate == today &&
            t.status == TokenStatus.WAITING) := by
        rw [List.mem_filter]
        exact ⟨hu, by simp [hudoc, hudate, hustat]⟩
      have hnb : ¬beats u best := selectTop_not_beaten _ best hsel u huc
      rcases lt_trichotomy u.priority best.priority with h1 | h1 | h1
      · exact Or.inl h1
      · rcases lt_trichotomy best.tokenNumber u.tokenNumber with h2 | h2 | h2
        · exact Or.inr ⟨h1.symm, h2⟩
        · exact absurd (hdist u hu best hbmem hudoc hudate hustat hbdoc hbdate hbstat
            h1 h2.symm) hne
        · exact absurd (Or.inr ⟨h1, h2⟩ : beats u best) hnb
      · exact absurd (Or.inl h1 : beats u best) hnb
    · show (callNext tokens doctorId today now).1 = _
      unfold callNext
      dsimp only
      rw [hsel]

/-- The two tokens of the spec scenario: token 1 at priority 0, token 2 at
priority 5, same doctor and day. -/
def c8Tok1 : OpdToken :=
  { id := 1, doctorId := 7, tokenNumber := "OPD001", tokenDate := 0
    status := TokenStatus.WAITING, priority := 0, callTime := none }

def c8Tok2 : OpdToken :=
  { id := 2, doctorId := 7, tokenNumber := "OPD002", tokenDate := 0
    status := TokenStatus.WAITING, priority := 5, callTime := none }

/-- Witness instantiating c8_call_next on the spec scenario: the priority-5
token is called first. -/
theorem c8_call_next_witness :
    (callNext [c8Tok1, c8Tok2] 7 0 11).1 =
      some { c8Tok2 with status := TokenStatus.CALLED, callTime := some 11 } := by
  obtain ⟨best, hmem, hdoc, hdate, hstat, hmax, hcall⟩ :=
    c8_call_next [c8Tok1, c8Tok2] 7 0 11 c8Tok2 (by decide) rfl rfl rfl (by decide)
  have hbest : best = c8Tok2 := by
    rcases List.mem_cons.mp hmem with h | h
    · exfalso
      have hne : c8Tok2 ≠ best := by
        rw [h]
        decide
      have hb := hmax c8Tok2 (by decide) rfl rfl rfl hne
      rw [h] at hb
      revert hb
      decide
    · simpa using h
  rw [hbest] at hcall
  exact hcall

end Opd

namespace Ipd

/-- BedStatus enum from the Prisma schema (also the valid set of the bed
status route). -/
inductive BedStatus
  | AVAILABLE
  | OCCUPIED
  | RESERVED
  | MAINTENANCE
deriving DecidableEq, Repr

/-- AdmissionStatus enum from the Prisma schema. -/
inductive AdmissionStatus
  | ADMITTED
  | DISCHARGED
  | TRANSFERRED
  | DECEASED
deriving DecidableEq, Repr

/-- A Bed row (ward, type and rate columns elided). -/
structure Bed where
  id : Nat
  status : BedStatus
deriving DecidableEq, Repr

/-- An Admission row (patient, doctor, diagnosis and timestamps elided;
medication schedules are discontinued on discharge but play no part in the
bed pairing). -/
structure Admission where
  id : Nat
  bedId : Nat
  status : AdmissionStatus
deriving DecidableEq, Repr

/-- The slice of the database the IPD routes touch. -/
structure IpdState where
  beds : List Bed
  admissions : List Admission
deriving DecidableEq, Repr

/-- POST /beds: a new bed starts AVAILABLE; a duplicate bed number is
rejected through the unique constraint. -/
def createBed (s : IpdState) (bedId : Nat) : Except String IpdState :=
  if s.beds.any (fun b => b.id == bedId) then Except.error "Bed number already exists"
  else Except.ok { s with beds := s.beds ++ [{ id := bedId, status := BedStatus.AVAILABLE }] }

/-- POST /admissions: the target bed must exist and be AVAILABLE; the
transaction creates the ADMITTED admission and flips the bed to OCCUPIED. -/
def admitPatient (s : IpdState) (bedId admissionId : Nat) : Except String IpdState :=
  match s.beds.find? (fun b => b.id == bedId) with
  | none => Except.error "Bed not available"
  | some bed =>
    if bed.status ≠ BedStatus.AVAILABLE then Except.error "Bed not available"
    else
      Except.ok
        { beds := s.beds.map (fun b =>
            if b.id == bedId then { b with status := BedStatus.OCCUPIED } else b)
          admissions := s.admissions ++
            [{ id := admissionId, bedId := bedId, status := AdmissionStatus.ADMITTED }] }

/-- POST /admissions/:id/discharge: the admission must currently be
ADMITTED; the transaction sets it DISCHARGED and frees its bed. -/
def dischargeAdmission (s : IpdState) (admissionId : Nat) : Except String IpdState :=
  match s.admissions.find? (fun a => a.id == admissionId) with
  | none => Except.error "Admission not found"
  | some adm =>
    if adm.status ≠ AdmissionStatus.ADMITTED then
      Except.error "Patient is not currently admitted"
    else
      Except.ok
        { beds := s.beds.map (fun b =>
            if b.id == adm.bedId then { b with status := BedStatus.AVAILABLE } else b)
          admissions := s.admissions.map (fun a =>
            if a.id == admissionId then { a with status := AdmissionStatus.DISCHARGED }
            else a) }

/-- PATCH /beds/:id/status: any of the four statuses is written directly,
with no look at admissions. -/
def updateBedStatus (s : IpdState) (bedId : Nat) (status : BedStatus) :
    Except String IpdState :=
  match s.beds.find? (fun b => b.id == bedId) with
  | none => Except.error "Bed not found"
  | some _ =>
    Except.ok { s with beds := s.beds.map (fun b =>
      if b.id == bedId then { b with status := status } else b) }

/-- The number of ADMITTED admissions on one bed. -/
def countAdmitted (admissions : List Admission) (bedId : Nat) : Nat :=
  admissions.countP (fun a => a.bedId == bedId && a.status == AdmissionStatus.ADMITTED)

/-- IPD states reachable through bed creation, admission and discharge
(admission ids are minted by the database, hence the freshness side
condition). -/
inductive IpdReachable : IpdState → Prop
  | init : IpdReachable { beds := [], admissions := [] }
  | bed (s s2 : IpdState) (bedId : Nat) (h : IpdReachable s)
      (hok : createBed s bedId = Except.ok s2) : IpdReachable s2
  | admitStep (s s2 : IpdState) (bedId admissionId : Nat) (h : IpdReachable s)
      (hfresh : ∀ a ∈ s.admissions, a.id ≠ admissionId)
      (hok : admitPatient s bedId admissionId = Except.ok s2) : IpdReachable s2
  | discharge (s s2 : IpdState) (admissionId : Nat) (h : IpdReachable s)
      (hok : dischargeAdmission s admissionId = Except.ok s2) : IpdReachable s2

/-- Two distinct members both satisfying a predicate force a count of at
least two. -/
theorem two_le_countP {α : Type} [DecidableEq α] {l : List α} {p : α → Bool} {x y : α}
    (hx : x ∈ l) (hy : y ∈ l) (hxy : x ≠ y) (hpx : p x = true) (hpy : p y = true) :
    2 ≤ l.countP p := by
  have hxf : x ∈ l.filter p := List.mem_filter.mpr ⟨hx, hpx⟩
  have hyf : y ∈ l.filter p := List.mem_filter.mpr ⟨hy, hpy⟩
  have hyx : y ∈ (l.filter p).erase x := (List.mem_erase_of_ne (Ne.symm hxy)).mpr hyf
  have h1 : 0 < ((l.filter p).erase x).length := List.length_pos.mpr (List.ne_nil_of_mem hyx)
  have hlen : ((l.filter p).erase x).length = (l.filter p).length - 1 :=
    List.length_erase_of_mem hxf
  rw [List.countP_eq_length_filter]
  omega

/-- In a list with pairwise distinct ids, equal ids force equal members. -/
theorem eq_of_mem_of_id_eq {α : Type} (idf : α → Nat) {l : List α}
    (hpw : l.Pairwise (fun a b => idf a ≠ idf b)) {x y : α}
    (hx : x ∈ l) (hy : y ∈ l) (hid : idf x = idf y) : x = y := by
  induction l with
  | nil => exact absurd hx (List.not_mem_nil x)
  | cons a rest ih =>
    have hpw2 := List.pairwise_cons.mp hpw
    rcases List.mem_cons.mp hx with rfl | hx2
    · rcases List.mem_cons.mp hy with rfl | hy2
      · rfl
      · exact absurd hid (hpw2.1 y hy2)
    · rcases List.mem_cons.mp hy with rfl | hy2
      · exact absurd hid.symm (hpw2.1 x hx2)
      · exact ih hpw2.2 hx2 hy2

/-- Pointwise equal predicates count equal. -/
theorem countP_congr_mem {α : Type} {l : List α} {p q : α → Bool}
    (h : ∀ a ∈ l, p a = q a) : l.countP p = l.countP q := by
  induction l with
  | nil => rfl
  | cons a rest ih =>
    rw [List.countP_cons, List.countP_cons, h a (List.mem_cons_self a rest),
      ih (fun x hx => h x (List.mem_cons_of_mem a hx))]

/-- The invariant coupling beds and admissions, maintained by bed creation,
admission and discharge. -/
def PairInv (s : IpdState) : Prop :=
  s.beds.Pairwise (fun a b => a.id ≠ b.id) ∧
  s.admissions.Pairwise (fun a b => a.id ≠ b.id) ∧
  (∀ a ∈ s.admissions, ∃ b ∈ s.beds, b.id = a.bedId) ∧
  (∀ b ∈ s.beds, countAdmitted s.admissions b.id =
    if b.status = BedStatus.OCCUPIED then 1 else 0)

theorem pairInv_bed (s s2 : IpdState) (bedId : Nat)
    (hok : createBed s bedId = Except.ok s2) (ih : PairInv s) : PairInv s2 := by
  obtain ⟨hbpw, hapw, href, hcount⟩ := ih
  by_cases hany : s.beds.any (fun b => b.id == bedId)
  · simp [createBed, hany] at hok
  · simp only [createBed, hany, Bool.false_eq_true, if_false, Except.ok.injEq] at hok
    subst hok
    have hfreshBed : ∀ b ∈ s.beds, b.id ≠ bedId := by
      intro b hb
      have hany2 : s.beds.any (fun b => b.id == bedId) = false := by
        simpa using hany
      have := List.any_eq_false.mp hany2 b hb
      simpa using this
    refine ⟨?_, hapw, ?_, ?_⟩
    · rw [List.pairwise_append]
      refine ⟨hbpw, by simp, ?_⟩
      intro a ha b hb
      rcases List.mem_singleton.mp hb with rfl
      exact hfreshBed a ha
    · intro a ha
      obtain ⟨b, hb, hid⟩ := href a ha
      exact ⟨b, List.mem_append_left _ hb, hid⟩
    · intro b hb
      rcases List.mem_append.mp hb with hb1 | hb2
      · exact hcount b hb1
      · rcases List.mem_singleton.mp hb2 with rfl
        simp only [show (({ id := bedId, status := BedStatus.AVAILABLE } : Bed).status =
          BedStatus.OCCUPIED) = False from by simp, if_false]
        rw [countAdmitted, List.countP_eq_zero]
        intro a ha
        intro hpa
        simp only [Bool.and_eq_true, beq_iff_eq] at hpa
        obtain ⟨b2, hb2, hid2⟩ := href a ha
        exact hfreshBed b2 hb2 (hid2.trans hpa.1)

theorem pairInv_admitPatient (s s2 : IpdState) (bedId admissionId : Nat)
    (hfresh : ∀ a ∈ s.admissions, a.id ≠ admissionId)
    (hok : admitPatient s bedId admissionId = Except.ok s2) (ih : PairInv s) : PairInv s2 := by
  obtain ⟨hbpw, hapw, href, hcount⟩ := ih
  cases hfind : s.beds.find? (fun b => b.id == bedId) with
  | none =>
    rw [admitPatient, hfind] at hok
    exact absurd hok (by simp)
  | some bed =>
    rw [admitPatient, hfind] at hok
    dsimp only at hok
    by_cases hav : bed.status ≠ BedStatus.AVAILABLE
    · rw [if_pos hav] at hok
      exact absurd hok (by simp)
    · rw [if_neg hav] at hok
      push_neg at hav
      cases hok
      have hbedmem : bed ∈ s.beds := List.mem_of_find?_eq_some hfind
      have hbedid : bed.id = bedId := by
        have := List.find?_some hfind
        simpa using this
      set f : Bed → Bed := fun b =>
        if b.id == bedId then { b with status := BedStatus.OCCUPIED } else b with hf
      have hid : ∀ b : Bed, (f b).id = b.id := by
        intro b
        simp only [hf]
        by_cases hc : b.id = bedId
        · simp [hc]
        · simp [hc]
      refine ⟨?_, ?_, ?_, ?_⟩
      · rw [List.pairwise_map]
        refine hbpw.imp ?_
        intro a b hab
        rw [hid a, hid b]
        exact hab
      · rw [List.pairwise_append]
        refine ⟨hapw, by simp, ?_⟩
        intro a ha b hb
        rcases List.mem_singleton.mp hb with rfl
        exact hfresh a ha
      · intro a ha
        rcases List.mem_append.mp ha with ha1 | ha2
        · obtain ⟨b, hb, hidb⟩ := href a ha1
          exact ⟨f b, List.mem_map_of_mem f hb, by rw [hid b]; exact hidb⟩
        · rcases List.mem_singleton.mp ha2 with rfl
          refine ⟨f bed, List.mem_map_of_mem f hbedmem, ?_⟩
          rw [hid bed]
          exact hbedid
      · intro b2 hb2
        obtain ⟨b, hb, rfl⟩ := List.mem_map.mp hb2
        rw [hid b, countAdmitted, List.countP_append]
        by_cases hc : b.id = bedId
        · have hbeq : b = bed :=
            eq_of_mem_of_id_eq (fun x => x.id) hbpw hb hbedmem
              (by show b.id = bed.id; rw [hc, hbedid])
          have hbav : b.status = BedStatus.AVAILABLE := by
            rw [hbeq]
            exact hav
          have hold := hcount b hb
          rw [countAdmitted, hbav] at hold
          simp only [show (BedStatus.AVAILABLE = BedStatus.OCCUPIED) = False from by simp,
            if_false] at hold
          have hnew : List.countP
              (fun a : Admission => a.bedId == b.id && a.status == AdmissionStatus.ADMITTED)
              [{ id := admissionId, bedId := bedId, status := AdmissionStatus.ADMITTED }] = 1 := by
            simp [hc]
          rw [hold, hnew]
          have hocc : (f b).status = BedStatus.OCCUPIED := by
            simp [hf, hc]
          rw [hocc]
          simp
        · have hnew0 : List.countP
              (fun a : Admission => a.bedId == b.id && a.status == AdmissionStatus.ADMITTED)
              [{ id := admissionId, bedId := bedId, status := AdmissionStatus.ADMITTED }] = 0 := by
            simp
            intro hcc
            exact absurd hcc.symm hc
          have hfb : f b = b := by
            simp [hf, hc]
          rw [hnew0, hfb, Nat.add_zero]
          have hold := hcount b hb
          rw [countAdmitted] at hold
          exact hold

theorem pairInv_discharge (s s2 : IpdState) (admissionId : Nat)
    (hok : dischargeAdmission s admissionId = Except.ok s2) (ih : PairInv s) : PairInv s2 := by
  obtain ⟨hbpw, hapw, href, hcount⟩ := ih
  cases hfind : s.admissions.find? (fun a => a.id == admissionId) with
  | none =>
    rw [dischargeAdmission, hfind] at hok
    exact absurd hok (by simp)
  | some adm =>
    rw [dischargeAdmission, hfind] at hok
    dsimp only at hok
    by_cases hadm : adm.status ≠ AdmissionStatus.ADMITTED
    · rw [if_pos hadm] at hok
      exact absurd hok (by simp)
    · rw [if_neg hadm] at hok
      push_neg at hadm
      cases hok
      have hadmmem : adm ∈ s.admissions := List.mem_of_find?_eq_some hfind
      have hadmid : adm.id = admissionId := by
        have := List.find?_some hfind
        simpa using this
      set fB : Bed → Bed := fun b =>
        if b.id == adm.bedId then { b with status := BedStatus.AVAILABLE } else b with hfB
      set g : Admission → Admission := fun a =>
        if a.id == admissionId then { a with status := AdmissionStatus.DISCHARGED } else a with hg
      have hidB : ∀ b : Bed, (fB b).id = b.id := by
        intro b
        simp only [hfB]
        by_cases hc : b.id = adm.bedId
        · simp [hc]
        · simp [hc]
      have hidG : ∀ a : Admission, (g a).id = a.id ∧ (g a).bedId = a.bedId := by
        intro a
        simp only [hg]
        by_cases hc : a.id = admissionId
        · simp [hc]
        · simp [hc]
      refine ⟨?_, ?_, ?_, ?_⟩
      · rw [List.pairwise_map]
        refine hbpw.imp ?_
        intro a b hab
        rw [hidB a, hidB b]
        exact hab
      · rw [List.pairwise_map]
        refine hapw.imp ?_
        intro a b hab
        rw [(hidG a).1, (hidG b).1]
        exact hab
      · intro a2 ha2
        obtain ⟨a, ha, rfl⟩ := List.mem_map.mp ha2
        obtain ⟨b, hb, hidb⟩ := href a ha
        refine ⟨fB b, List.mem_map_of_mem fB hb, ?_⟩
        rw [hidB b, (hidG a).2]
        exact hidb
      · intro b2 hb2
        obtain ⟨b, hb, rfl⟩ := List.mem_map.mp hb2
        rw [hidB b, countAdmitted, List.countP_map]
        by_cases hc : b.id = adm.bedId
        · have hpadm : (fun a : Admission =>
              a.bedId == b.id && a.status == AdmissionStatus.ADMITTED) adm = true := by
            simp [hc, hadm]
          have hold := hcount b hb
          rw [countAdmitted] at hold
          have hposold : 0 < List.countP
              (fun a : Admission => a.bedId == b.id && a.status == AdmissionStatus.ADMITTED)
              s.admissions :=
            List.countP_pos_iff.mpr ⟨adm, hadmmem, hpadm⟩
          have hbocc : b.status = BedStatus.OCCUPIED := by
            by_contra hno
            rw [if_neg hno] at hold
            omega
          rw [if_pos hbocc] at hold
          have hz : List.countP
              ((fun a : Admission => a.bedId == b.id && a.status == AdmissionStatus.ADMITTED) ∘ g)
              s.admissions = 0 := by
            rw [List.countP_eq_zero]
            intro a ha hpa
            by_cases hga : a.id = admissionId
            · simp [Function.comp, hg, hga] at hpa
            · have hgaeq : g a = a := by
                simp [hg, hga]
              rw [Function.comp_apply, hgaeq] at hpa
              have hane : a ≠ adm := fun he => hga (he ▸ hadmid)
              have h2 := @two_le_countP Admission _ s.admissions
                (fun a : Admission => a.bedId == b.id && a.status == AdmissionStatus.ADMITTED)
                a adm ha hadmmem hane hpa hpadm
              omega
          rw [hz]
          have hfbav : (fB b).status = BedStatus.AVAILABLE := by
            simp [hfB, hc]
          rw [hfbav]
          simp
        · have hfbeq : fB b = b := by
            simp [hfB, hc]
          have hcong : List.countP
              ((fun a : Admission => a.bedId == b.id && a.status == AdmissionStatus.ADMITTED) ∘ g)
              s.admissions =
              List.countP
                (fun a : Admission => a.bedId == b.id && a.status == AdmissionStatus.ADMITTED)
                s.admissions := by
            apply countP_congr_mem
            intro a ha
            by_cases hga : a.id = admissionId
            · have haeq : a = adm :=
                eq_of_mem_of_id_eq (fun x => x.id) hapw ha hadmmem
                  (by show a.id = adm.id; rw [hga, hadmid])
              subst haeq
              have h1 : (a.bedId == b.id) = false := by
                rw [beq_eq_false_iff_ne]
                exact fun he => hc (he.symm)
              simp [Function.comp, hg, hga, h1]
            · have hgaeq : g a = a := by
                simp [hg, hga]
              simp [Function.comp, hgaeq]
          rw [hcong, hfbeq]
          have hold := hcount b hb
          rw [countAdmitted] at hold
          exact hold

theorem pairInv_reachable (s : IpdState) (h : IpdReachable s) : PairInv s := by
  induction h with
  | init => exact ⟨List.Pairwise.nil, List.Pairwise.nil, by simp, by simp⟩
  | bed s s2 bedId h hok ih => exact pairInv_bed s s2 bedId hok ih
  | admitStep s s2 bedId admissionId h hfresh hok ih =>
    exact pairInv_admitPatient s s2 bedId admissionId hfresh hok ih
  | discharge s s2 admissionId h hok ih => exact pairInv_discharge s s2 admissionId hok ih

/-- The C9 counterexample states: one freshly created AVAILABLE bed, then a
direct bed-status write. -/
def c9State : IpdState :=
  { beds := [{ id := 1, status := BedStatus.AVAILABLE }], admissions := [] }

def c9After : IpdState :=
  { beds := [{ id := 1, status := BedStatus.OCCUPIED }], admissions := [] }

/-- C9 is false as stated: from the reachable state with one AVAILABLE bed
and no admission, PATCH /beds/:id/status sets the bed OCCUPIED directly, so
the system reaches a state with an OCCUPIED bed and zero ADMITTED
admissions. -/
theorem c9_counterexample :
    IpdReachable c9State ∧
    updateBedStatus c9State 1 BedStatus.OCCUPIED = Except.ok c9After ∧
    ({ id := 1, status := BedStatus.OCCUPIED } : Bed) ∈ c9After.beds ∧
    countAdmitted c9After.admissions 1 = 0 := by
  refine ⟨?_, rfl, by decide, rfl⟩
  exact IpdReachable.bed { beds := [], admissions := [] } c9State 1 IpdReachable.init rfl

/-- C9 amended: admission requires an AVAILABLE bed and atomically creates
the ADMITTED admission while flipping the bed to OCCUPIED, and discharge
atomically sets the admission DISCHARGED and frees the bed; hence in every
state reachable through bed creation, admission and discharge, a bed is
OCCUPIED iff exactly one ADMITTED admission sits on it, and any other bed
status carries none.  The direct bed-status PATCH, which writes any of the
four statuses while never reading admissions, breaks this pairing (see the
counterexample), so the claim does not hold over all routes. -/
theorem c9_bed_admission_pairing (s : IpdState) (h : IpdReachable s) :
    ∀ b ∈ s.beds,
      (b.status = BedStatus.OCCUPIED ↔ countAdmitted s.admissions b.id = 1) ∧
      (b.status ≠ BedStatus.OCCUPIED → countAdmitted s.admissions b.id = 0) := by
  obtain ⟨_, _, _, hcount⟩ := pairInv_reachable s h
  intro b hb
  have hc := hcount b hb
  refine ⟨⟨?_, ?_⟩, ?_⟩
  · intro hocc
    rw [hc, if_pos hocc]
  · intro h1
    by_contra hno
    rw [if_neg hno] at hc
    omega
  · intro hno
    rw [hc, if_neg hno]

/-- Reached by creating bed 1 and admitting a patient to it. -/
def c9WState : IpdState :=
  { beds := [{ id := 1, status := BedStatus.OCCUPIED }]
    admissions := [{ id := 1, bedId := 1, status := AdmissionStatus.ADMITTED }] }

/-- Witness instantiating c9_bed_admission_pairing after one admission. -/
theorem c9_bed_admission_pairing_witness :
    countAdmitted c9WState.admissions 1 = 1 := by
  have hreach : IpdReachable c9WState := by
    refine IpdReachable.admitStep
      { beds := [{ id := 1, status := BedStatus.AVAILABLE }], admissions := [] }
      c9WState 1 1 ?_ ?_ rfl
    · exact IpdReachable.bed { beds := [], admissions := [] } _ 1 IpdReachable.init rfl
    · intro a ha
      exact absurd ha (List.not_mem_nil a)
  have h := c9_bed_admission_pairing c9WState hreach
    { id := 1, status := BedStatus.OCCUPIED } (by decide)
  exact (h.1).mp rfl

end Ipd
